import Mathlib

/-!
Shallow embedding of the analytics views defined in `server.py` of the
Equity-Research backend: the SQL views `ana_client_portfolio_risk`,
`ana_client_engagement_momentum`, `ana_client_conviction` and
`int_client_risk_multifactor`, together with the per-client lookup
functions that read one row from each view.

Tables are lists of records; SQL numeric values are modelled as exact
rationals (`ℚ`); `julianday('now')` is an explicit `now : ℚ` parameter;
nullable SQL expressions are `Option`s.  SQLite `ROUND(x, n)` (round half
away from zero at `n` decimal digits) is modelled by `roundTo`.
-/

/-- SQLite `ROUND` to an integer: round half away from zero. -/
def roundAwayZ (q : ℚ) : ℤ :=
  if 0 ≤ q then ⌊q + 1/2⌋ else -⌊-q + 1/2⌋

/-- SQLite `ROUND(q, n)`: round half away from zero at `n` decimal digits. -/
def roundTo (n : ℕ) (q : ℚ) : ℚ :=
  (roundAwayZ (q * 10 ^ n) : ℚ) / 10 ^ n

/-! ## Data model (the `src_` tables read by the views) -/

/-- A row of `src_portfolio_snapshots` (fields the views read). -/
structure Snapshot where
  snapshot_id : ℕ
  client_id : ℕ
  as_of_date : ℚ
deriving DecidableEq

/-- A row of `src_positions` (fields the views read). -/
structure Position where
  snapshot_id : ℕ
  stock_id : ℕ
  weight : ℚ
  market_value : ℚ
deriving DecidableEq

/-- A row of `src_trade_executions` (fields the views read);
`trade_timestamp` is its julian-day number. -/
structure TradeExec where
  client_id : ℕ
  stock_id : ℕ
  ticker : Option String
  side : String
  notional_bucket : String
  trade_timestamp : ℚ
deriving DecidableEq

/-- A row of `src_call_logs` (fields the views read). -/
structure CallLog where
  client_id : ℕ
  call_timestamp : ℚ
  duration_minutes : ℚ
deriving DecidableEq

/-- A row of `src_clients` (fields the views read). -/
structure Client where
  client_id : ℕ
  client_type : String
deriving DecidableEq

/-! ## `ana_client_portfolio_risk` -/

/-- The `latest_snap` CTE: `MAX(snapshot_id)` over the client's snapshots. -/
def latestSnapId (snaps : List Snapshot) (c : ℕ) : Option ℕ :=
  match (snaps.filter fun s => decide (s.client_id = c)).map Snapshot.snapshot_id with
  | [] => none
  | x :: xs => some (xs.foldl max x)

/-- The `pos_data` CTE restricted to client `c`: positions joined to the
client's `latest_snap` row on `snapshot_id`. -/
def posData (snaps : List Snapshot) (positions : List Position) (c : ℕ) :
    List Position :=
  match latestSnapId snaps c with
  | none => []
  | some sid => positions.filter fun p => decide (p.snapshot_id = sid)

/-- `SUM(weight_squared)` of the view: the Herfindahl-Hirschman index of a
position list. -/
def hhiOf (l : List Position) : ℚ :=
  (l.map fun p => p.weight * p.weight).sum

/-- `effective_positions` of the view: `1/HHI` when `HHI > 0`, else `0`. -/
def effectiveNumPositions (l : List Position) : ℚ :=
  if 0 < hhiOf l then 1 / hhiOf l else 0

/-- `SUM(weighted_vol)` of the view: `Σ weight × 0.25`. -/
def totalWeightedVol (l : List Position) : ℚ :=
  (l.map fun p => p.weight * 0.25).sum

/-- Output row of `ana_client_portfolio_risk` (the columns selected by
`get_portfolio_risk`). -/
structure PortfolioRiskRow where
  portfolio_volatility : ℚ
  max_position_weight : ℚ
  total_positions : ℕ
  large_positions : ℕ
  avg_stock_volatility : ℚ
  high_vol_exposure : ℚ
  hhi_concentration : ℚ
  effective_num_positions : ℚ
  hhi_risk_level : String
  volatility_risk_level : String
  concentration_risk_level : String
deriving DecidableEq

/-- SQL `MAX` over a nonempty group, as a fold. -/
def qMax (x : ℚ) (xs : List ℚ) : ℚ := xs.foldl max x

/-- The view `ana_client_portfolio_risk`, looked up at one client
(`get_portfolio_risk`): `none` when the grouped CTE has no row for the
client (no positions join the client's latest snapshot). -/
def ana_client_portfolio_risk (snaps : List Snapshot) (positions : List Position)
    (c : ℕ) : Option PortfolioRiskRow :=
  match posData snaps positions c with
  | [] => none
  | p :: ps =>
    let l := p :: ps
    let hhi := hhiOf l
    let vol := totalWeightedVol l
    let maxW := qMax p.weight (ps.map Position.weight)
    some
      { portfolio_volatility := roundTo 4 vol
        max_position_weight := maxW
        total_positions := l.length
        large_positions := l.countP fun q => decide (q.weight > 0.10)
        avg_stock_volatility := 0.25
        high_vol_exposure := 0.0
        hhi_concentration := roundTo 4 hhi
        effective_num_positions := roundTo 1 (effectiveNumPositions l)
        hhi_risk_level :=
          if 0.25 ≤ hhi then "Very Concentrated"
          else if 0.15 ≤ hhi then "Concentrated"
          else if 0.10 ≤ hhi then "Moderate"
          else "Diversified"
        volatility_risk_level :=
          if 0.25 ≤ vol then "High"
          else if 0.15 ≤ vol then "Medium"
          else "Low"
        concentration_risk_level :=
          if 0.20 ≤ maxW then "Concentrated"
          else if 0.10 ≤ maxW then "Moderate"
          else "Diversified" }

/-! ## `ana_client_engagement_momentum` -/

/-- The 14-day-constant decay factor `1 / (1 + days_ago / 14)`. -/
def decayWeight14 (days_ago : ℚ) : ℚ := 1 / (1 + days_ago / 14)

/-- The 30-day-constant decay factor `1 / (1 + days_ago / 30)` (conviction). -/
def decayWeight30 (days_ago : ℚ) : ℚ := 1 / (1 + days_ago / 30)

/-- `size_weight`: `Large → 3.0`, `Medium → 1.5`, else `1.0`. -/
def sizeWeight (b : String) : ℚ :=
  if b = "Large" then 3.0 else if b = "Medium" then 1.5 else 1.0

/-- The `call_events` CTE: calls with `days_ago ≤ 90` (no lower bound). -/
def callEvents (calls : List CallLog) (now : ℚ) : List CallLog :=
  calls.filter fun e => decide (now - e.call_timestamp ≤ 90)

/-- The `trade_events` CTE: trades with `days_ago ≤ 90` (no lower bound). -/
def tradeEvents (trades : List TradeExec) (now : ℚ) : List TradeExec :=
  trades.filter fun t => decide (now - t.trade_timestamp ≤ 90)

/-- One group of the `calls_decayed` CTE. -/
structure CallsDecayed where
  raw_count : ℕ
  decayed_count : ℚ
  decayed_duration : ℚ
  calls_30d : ℕ
  calls_prior_30d : ℕ
deriving DecidableEq

/-- The `calls_decayed` CTE at client `c`: `none` when the client has no
call event in the 90-day window (no group is formed). -/
def callsDecayed (calls : List CallLog) (now : ℚ) (c : ℕ) : Option CallsDecayed :=
  match (callEvents calls now).filter fun e => decide (e.client_id = c) with
  | [] => none
  | e :: es =>
    let l := e :: es
    some
      { raw_count := l.length
        decayed_count := (l.map fun x => decayWeight14 (now - x.call_timestamp)).sum
        decayed_duration :=
          (l.map fun x => x.duration_minutes * decayWeight14 (now - x.call_timestamp)).sum
        calls_30d := l.countP fun x => decide (now - x.call_timestamp ≤ 30)
        calls_prior_30d :=
          l.countP fun x => decide (31 ≤ now - x.call_timestamp ∧ now - x.call_timestamp ≤ 60) }

/-- One group of the `trades_decayed` CTE. -/
structure TradesDecayed where
  raw_count : ℕ
  decayed_weighted_count : ℚ
  decayed_buys : ℚ
  decayed_sells : ℚ
  trades_30d : ℕ
  trades_prior_30d : ℕ
  large_trades_30d : ℕ
deriving DecidableEq

/-- The `trades_decayed` CTE at client `c`. -/
def tradesDecayed (trades : List TradeExec) (now : ℚ) (c : ℕ) : Option TradesDecayed :=
  match (tradeEvents trades now).filter fun t => decide (t.client_id = c) with
  | [] => none
  | t :: ts =>
    let l := t :: ts
    some
      { raw_count := l.length
        decayed_weighted_count :=
          (l.map fun x =>
            decayWeight14 (now - x.trade_timestamp) * sizeWeight x.notional_bucket).sum
        decayed_buys :=
          (l.map fun x =>
            if x.side = "Buy" then decayWeight14 (now - x.trade_timestamp) else 0).sum
        decayed_sells :=
          (l.map fun x =>
            if x.side = "Sell" then decayWeight14 (now - x.trade_timestamp) else 0).sum
        trades_30d := l.countP fun x => decide (now - x.trade_timestamp ≤ 30)
        trades_prior_30d :=
          l.countP fun x => decide (31 ≤ now - x.trade_timestamp ∧ now - x.trade_timestamp ≤ 60)
        large_trades_30d :=
          l.countP fun x =>
            decide (now - x.trade_timestamp ≤ 30 ∧ x.notional_bucket = "Large") }

/-- Output row of `ana_client_engagement_momentum` (the columns selected by
`get_engagement_momentum`); SQL-nullable columns are `Option`s. -/
structure EngagementRow where
  calls_last_30d : ℕ
  calls_prior_30d : ℕ
  call_momentum : Option ℚ
  trades_last_30d : ℕ
  trades_prior_30d : ℕ
  trade_momentum : Option ℚ
  recent_buy_ratio : Option ℚ
  large_trades_30d : ℕ
  engagement_score_decayed : ℚ
  engagement_score_30d : ℚ
  engagement_trend : String
  trade_probability : Option ℚ
deriving DecidableEq

/-- The `engagement_trend` CASE of the view, on the `COALESCE`d raw counts
(evaluated in the source's order: Accelerating, Cooling Off, Dormant,
Stable). -/
def engagementTrend (calls30 callsPrior trades30 tradesPrior : ℕ) : String :=
  if (calls30 : ℚ) > (callsPrior : ℚ) * 1.5 ∨ (trades30 : ℚ) > (tradesPrior : ℚ) * 1.5
  then "Accelerating"
  else if (calls30 : ℚ) < (callsPrior : ℚ) * 0.5 ∧ (trades30 : ℚ) < (tradesPrior : ℚ) * 0.5
  then "Cooling Off"
  else if calls30 = 0 ∧ trades30 = 0 then "Dormant"
  else "Stable"

/-- The output row of the engagement view for client `c` (the row does not
depend on the matched `src_clients` record beyond its existence). -/
def engagementRowOf (calls : List CallLog) (trades : List TradeExec) (now : ℚ)
    (c : ℕ) : EngagementRow :=
  let cd := callsDecayed calls now c
  let td := tradesDecayed trades now c
  let calls30 : ℕ := (cd.map CallsDecayed.calls_30d).getD 0
  let callsPrior : ℕ := (cd.map CallsDecayed.calls_prior_30d).getD 0
  let trades30 : ℕ := (td.map TradesDecayed.trades_30d).getD 0
  let tradesPrior : ℕ := (td.map TradesDecayed.trades_prior_30d).getD 0
  let decayedDuration : ℚ := (cd.map CallsDecayed.decayed_duration).getD 0
  let decayedCount : ℚ := (cd.map CallsDecayed.decayed_count).getD 0
  let dwc : ℚ := (td.map TradesDecayed.decayed_weighted_count).getD 0
  let buys : ℚ := (td.map TradesDecayed.decayed_buys).getD 0
  let sells : ℚ := (td.map TradesDecayed.decayed_sells).getD 0
  { calls_last_30d := calls30
    calls_prior_30d := callsPrior
    call_momentum :=
      if callsPrior = 0 then none
      else some (roundTo 2 ((calls30 : ℚ) / (callsPrior : ℚ)))
    trades_last_30d := trades30
    trades_prior_30d := tradesPrior
    trade_momentum :=
      if tradesPrior = 0 then none
      else some (roundTo 2 ((trades30 : ℚ) / (tradesPrior : ℚ)))
    recent_buy_ratio :=
      if buys + sells = 0 then none
      else some (roundTo 2 (buys / (buys + sells)))
    large_trades_30d := (td.map TradesDecayed.large_trades_30d).getD 0
    engagement_score_decayed := roundTo 1 (decayedDuration * 0.15 + dwc * 2.5)
    engagement_score_30d := roundTo 1 (decayedCount * 3.0 + dwc * 2.0)
    engagement_trend := engagementTrend calls30 callsPrior trades30 tradesPrior
    trade_probability :=
      if dwc = 0 then some (roundTo 2 0.05)
      else if buys + sells = 0 then none
      else some (roundTo 2 (min 0.95
        (0.1 + 0.3 * min 1.0 (dwc / 10.0) + 0.3 * min 1.0 (decayedCount / 5.0) +
          0.2 * (buys / (buys + sells))))) }

/-- The view `ana_client_engagement_momentum`, looked up at one client
(`get_engagement_momentum`): one row per `src_clients` row, with the
decayed call/trade groups joined by `LEFT JOIN` and `COALESCE`d to `0`. -/
def ana_client_engagement_momentum (clients : List Client) (calls : List CallLog)
    (trades : List TradeExec) (now : ℚ) (c : ℕ) : Option EngagementRow :=
  match clients.find? fun cl => decide (cl.client_id = c) with
  | none => none
  | some _ => some (engagementRowOf calls trades now c)

/-! ## `ana_client_conviction` -/

/-- `est_notional`: `Large → 500000`, `Medium → 100000`, else `25000`. -/
def estNotional (b : String) : ℚ :=
  if b = "Large" then 500000 else if b = "Medium" then 100000 else 25000

/-- The `trade_values` CTE at client `c`: trades with a non-null ticker and
`days_ago ≤ 180`. -/
def tradeValues (trades : List TradeExec) (now : ℚ) (c : ℕ) : List TradeExec :=
  trades.filter fun t =>
    decide (t.client_id = c ∧ t.ticker ≠ none ∧ now - t.trade_timestamp ≤ 180)

/-- The distinct `(ticker, stock_id)` group keys of `trade_focus`, in first
occurrence order. -/
def tickerKeys (l : List TradeExec) : List (Option String × ℕ) :=
  l.foldl
    (fun acc t =>
      if (t.ticker, t.stock_id) ∈ acc then acc else acc ++ [(t.ticker, t.stock_id)]) []

/-- One group of the `trade_focus` CTE. -/
structure TickerAgg where
  ticker : Option String
  stock_id : ℕ
  trade_count : ℕ
  net_direction : ℤ
  total_notional : ℚ
  decayed_notional : ℚ
deriving DecidableEq

/-- The aggregates of one `trade_focus` group. -/
def aggKey (l : List TradeExec) (now : ℚ) (k : Option String × ℕ) : TickerAgg :=
  let g := l.filter fun t => decide (t.ticker = k.1 ∧ t.stock_id = k.2)
  { ticker := k.1
    stock_id := k.2
    trade_count := g.length
    net_direction := (g.map fun t => if t.side = "Buy" then (1 : ℤ) else -1).sum
    total_notional := (g.map fun t => estNotional t.notional_bucket).sum
    decayed_notional :=
      (g.map fun t =>
        estNotional t.notional_bucket * decayWeight30 (now - t.trade_timestamp)).sum }

/-- The `trade_focus` CTE at client `c`: one aggregate per distinct
`(ticker, stock_id)` of the client's windowed trades. -/
def tradeFocus (trades : List TradeExec) (now : ℚ) (c : ℕ) : List TickerAgg :=
  (tickerKeys (tradeValues trades now c)).map (aggKey (tradeValues trades now c) now)

/-- `SUM(SUM(est_notional)) OVER (PARTITION BY client_id)`: the client's
total estimated notional across all groups. -/
def clientTotalNotional (trades : List TradeExec) (now : ℚ) (c : ℕ) : ℚ :=
  ((tradeFocus trades now c).map TickerAgg.total_notional).sum

/-- `SUM(hhi_component)` of the `client_hhi` CTE: `Σ (notional share)²`. -/
def tradeHHI (trades : List TradeExec) (now : ℚ) (c : ℕ) : ℚ :=
  ((tradeFocus trades now c).map fun g =>
    (g.total_notional / clientTotalNotional trades now c) ^ 2).sum

/-- Selecting a row maximal under `f` by a left fold (the semantics of
`ROW_NUMBER() OVER (ORDER BY f DESC) = 1` with an arbitrary tie order:
this resolution keeps the first maximal row). -/
def topBy {α : Type} (f : α → ℚ) (x : α) (xs : List α) : α :=
  xs.foldl (fun best y => if f best < f y then y else best) x

/-- The `ranked ... WHERE rn = 1` selection: a group with maximal
`decayed_notional` (first such group; SQL's tie order is arbitrary). -/
def pickTop : List TickerAgg → Option TickerAgg
  | [] => none
  | g :: gs => some (topBy TickerAgg.decayed_notional g gs)

/-- Output row of `ana_client_conviction` (the columns selected by
`get_conviction`). -/
structure ConvictionRow where
  top_conviction_stock : Option String
  top_conviction_stock_id : ℕ
  trade_count : ℕ
  call_mentions : ℕ
  net_direction : ℤ
  trade_concentration : ℚ
  conviction_score : ℚ
  trade_hhi : ℚ
  effective_stocks_traded : ℚ
  conviction_level : String
  sentiment_signal : String
deriving DecidableEq

/-- The output row of the conviction view for a selected top group `g`. -/
def convictionRowOf (trades : List TradeExec) (now : ℚ) (c : ℕ)
    (g : TickerAgg) : ConvictionRow :=
  let total := clientTotalNotional trades now c
  let hhi := tradeHHI trades now c
  { top_conviction_stock := g.ticker
    top_conviction_stock_id := g.stock_id
    trade_count := g.trade_count
    call_mentions := 0
    net_direction := g.net_direction
    trade_concentration := roundTo 3 (g.total_notional / total)
    conviction_score := roundTo 1 (g.decayed_notional / 10000.0)
    trade_hhi := roundTo 4 hhi
    effective_stocks_traded := roundTo 1 (if 0 < hhi then 1 / hhi else 0)
    conviction_level :=
      if 0.25 ≤ hhi then "Very High"
      else if 0.15 ≤ hhi then "High"
      else if 0.08 ≤ hhi then "Moderate"
      else "Diversified"
    sentiment_signal :=
      if 0 < g.net_direction then "Bullish"
      else if g.net_direction < 0 then "Bearish"
      else "Neutral" }

/-- The view `ana_client_conviction`, looked up at one client
(`get_conviction`): `none` when the client has no windowed trade. -/
def ana_client_conviction (trades : List TradeExec) (now : ℚ) (c : ℕ) :
    Option ConvictionRow :=
  match pickTop (tradeFocus trades now c) with
  | none => none
  | some g => some (convictionRowOf trades now c g)

/-! ## `int_client_risk_multifactor` -/

/-- The `investor_type_risk` CTE's `CASE client_type` lookup. -/
def investorTypeFactor (t : String) : ℚ :=
  if t = "HedgeFund" then 0.85
  else if t = "Hedge Fund" then 0.85
  else if t = "FamilyOffice" then 0.65
  else if t = "Family Office" then 0.65
  else if t = "AssetManager" then 0.55
  else if t = "Asset Manager" then 0.55
  else if t = "Insurance" then 0.35
  else if t = "PensionFund" then 0.30
  else if t = "Pension Fund" then 0.30
  else 0.50

/-- The 180-day trade window of the `trading_behavior` CTE at client `c`. -/
def tradesWindow180 (trades : List TradeExec) (now : ℚ) (c : ℕ) : List TradeExec :=
  trades.filter fun t => decide (t.client_id = c ∧ now - t.trade_timestamp ≤ 180)

/-- The `trading_behavior` CTE at client `c`: `none` when the client has no
trade in the window (no group is formed). -/
def turnoverFactor? (trades : List TradeExec) (now : ℚ) (c : ℕ) : Option ℚ :=
  match tradesWindow180 trades now c with
  | [] => none
  | t :: ts =>
    let n := (t :: ts).length
    some (if 50 < n then 0.75 else if 20 < n then 0.55 else if 5 < n then 0.40 else 0.25)

/-- The weights of the `position_size` CTE's join at client `c`: every
position joined to any snapshot of the client (not only the latest). -/
def clientPositionWeights (snaps : List Snapshot) (positions : List Position)
    (c : ℕ) : List ℚ :=
  ((snaps.filter fun s => decide (s.client_id = c)).flatMap fun s =>
    positions.filter fun p => decide (p.snapshot_id = s.snapshot_id)).map Position.weight

/-- The `position_size` CTE at client `c`: `none` when the join is empty. -/
def positionFactor? (snaps : List Snapshot) (positions : List Position)
    (c : ℕ) : Option ℚ :=
  match clientPositionWeights snaps positions c with
  | [] => none
  | w :: ws =>
    let m := qMax w ws
    some (if 0.15 < m then 0.70 else if 0.08 < m then 0.50 else 0.35)

/-- Output row of `int_client_risk_multifactor`. -/
structure RiskRow where
  client_type : String
  investor_type_factor : ℚ
  trading_factor : ℚ
  position_factor : ℚ
  composite_risk_score : ℚ
  risk_category : String
  trade_activity : ℕ
deriving DecidableEq

/-- The output row of the multifactor view for the matched client row
`cl`. -/
def riskRowOf (cl : Client) (snaps : List Snapshot) (positions : List Position)
    (trades : List TradeExec) (now : ℚ) (c : ℕ) : RiskRow :=
  let itf := investorTypeFactor cl.client_type
  let tf := (turnoverFactor? trades now c).getD 0.40
  let pf := (positionFactor? snaps positions c).getD 0.40
  let raw := 0.40 * itf + 0.35 * tf + 0.25 * pf
  { client_type := cl.client_type
    investor_type_factor := itf
    trading_factor := tf
    position_factor := pf
    composite_risk_score := roundTo 3 raw
    risk_category :=
      if 0.60 ≤ raw then "Aggressive"
      else if 0.42 ≤ raw then "Moderate"
      else "Conservative"
    trade_activity := (tradesWindow180 trades now c).length }

/-- The view `int_client_risk_multifactor`, looked up at one client: one row
per `src_clients` row; the trading and position factors default to `0.40`
through `COALESCE` when their CTE has no group for the client. -/
def int_client_risk_multifactor (clients : List Client) (snaps : List Snapshot)
    (positions : List Position) (trades : List TradeExec) (now : ℚ) (c : ℕ) :
    Option RiskRow :=
  match clients.find? fun cl => decide (cl.client_id = c) with
  | none => none
  | some cl => some (riskRowOf cl snaps positions trades now c)

/-! ## Spec-side definition for the refinement comparison of the
"latest snapshot" selection -/

/-- The spec's words for "latest snapshot": the client's snapshot of maximum
`as_of_date` (first such snapshot when dates tie).  Used only to compare the
spec's selection rule with the one the view implements. -/
def specLatestDateSnap (snaps : List Snapshot) (c : ℕ) : Option Snapshot :=
  match snaps.filter fun s => decide (s.client_id = c) with
  | [] => none
  | s :: ss => some (topBy Snapshot.as_of_date s ss)

/-- The spec's words for the metric input of §4.1: the positions belonging
to the client's maximum-`as_of_date` snapshot. -/
def specLatestDatePositions (snaps : List Snapshot) (positions : List Position)
    (c : ℕ) : List Position :=
  match specLatestDateSnap snaps c with
  | none => []
  | some s => positions.filter fun p => decide (p.snapshot_id = s.snapshot_id)

/-! ## Helper lemmas -/

theorem foldl_max_mem {α : Type} [LinearOrder α] (x : α) (xs : List α) :
    xs.foldl max x ∈ x :: xs := by
  induction xs generalizing x with
  | nil => simp
  | cons y ys ih =>
    rw [List.foldl_cons]
    rcases List.mem_cons.mp (ih (max x y)) with h | h
    · rw [h]
      rcases max_choice x y with hm | hm
      · rw [hm]; exact List.mem_cons_self x (y :: ys)
      · rw [hm]; exact List.mem_cons_of_mem x (List.mem_cons_self y ys)
    · exact List.mem_cons_of_mem x (List.mem_cons_of_mem y h)

theorem le_foldl_max {α : Type} [LinearOrder α] (x : α) (xs : List α) :
    ∀ y ∈ x :: xs, y ≤ xs.foldl max x := by
  induction xs generalizing x with
  | nil =>
    intro y hy
    rw [List.mem_singleton] at hy
    rw [hy]
    simp
  | cons z zs ih =>
    intro y hy
    rw [List.foldl_cons]
    have hbase : max x z ≤ zs.foldl max (max x z) :=
      ih (max x z) _ (List.mem_cons_self _ _)
    rcases List.mem_cons.mp hy with h | h
    · rw [h]; exact le_trans (le_max_left x z) hbase
    · rcases List.mem_cons.mp h with h2 | h2
      · rw [h2]; exact le_trans (le_max_right x z) hbase
      · exact ih (max x z) y (List.mem_cons_of_mem _ h2)

theorem topBy_mem {α : Type} (f : α → ℚ) (x : α) (xs : List α) :
    topBy f x xs ∈ x :: xs := by
  unfold topBy
  induction xs generalizing x with
  | nil => simp
  | cons y ys ih =>
    rw [List.foldl_cons]
    by_cases h : f x < f y
    · rw [if_pos h]
      exact List.mem_cons_of_mem x (ih y)
    · rw [if_neg h]
      rcases List.mem_cons.mp (ih x) with h2 | h2
      · rw [h2]; exact List.mem_cons_self x (y :: ys)
      · exact List.mem_cons_of_mem x (List.mem_cons_of_mem y h2)

theorem le_topBy {α : Type} (f : α → ℚ) (x : α) (xs : List α) :
    ∀ y ∈ x :: xs, f y ≤ f (topBy f x xs) := by
  unfold topBy
  induction xs generalizing x with
  | nil =>
    intro y hy
    rw [List.mem_singleton] at hy
    rw [hy]
    simp
  | cons z zs ih =>
    intro y hy
    rw [List.foldl_cons]
    by_cases h : f x < f z
    · rw [if_pos h]
      have hbase := ih z z (List.mem_cons_self _ _)
      rcases List.mem_cons.mp hy with h1 | h1
      · rw [h1]; exact le_trans (le_of_lt h) hbase
      · rcases List.mem_cons.mp h1 with h2 | h2
        · rw [h2]; exact hbase
        · exact ih z y (List.mem_cons_of_mem _ h2)
    · rw [if_neg h]
      have hbase := ih x x (List.mem_cons_self _ _)
      rcases List.mem_cons.mp hy with h1 | h1
      · rw [h1]; exact hbase
      · rcases List.mem_cons.mp h1 with h2 | h2
        · rw [h2]; exact le_trans (not_lt.mp h) hbase
        · exact ih x y (List.mem_cons_of_mem _ h2)

/-- The step function of `tickerKeys` never empties its accumulator. -/
theorem tickerKeys_go_ne_nil (l : List TradeExec) :
    ∀ acc : List (Option String × ℕ), acc ≠ [] →
      l.foldl (fun acc t =>
        if (t.ticker, t.stock_id) ∈ acc then acc else acc ++ [(t.ticker, t.stock_id)]) acc ≠ [] := by
  induction l with
  | nil => intro acc h; simpa using h
  | cons t ts ih =>
    intro acc h
    rw [List.foldl_cons]
    by_cases hk : (t.ticker, t.stock_id) ∈ acc
    · rw [if_pos hk]; exact ih acc h
    · rw [if_neg hk]; exact ih _ (by simp)

theorem tickerKeys_ne_nil (t : TradeExec) (ts : List TradeExec) :
    tickerKeys (t :: ts) ≠ [] := by
  have h : tickerKeys (t :: ts) =
      ts.foldl (fun acc u =>
        if (u.ticker, u.stock_id) ∈ acc then acc else acc ++ [(u.ticker, u.stock_id)])
        [(t.ticker, t.stock_id)] := by
    simp [tickerKeys]
  rw [h]
  exact tickerKeys_go_ne_nil ts _ (by simp)

/-- Every key produced by the `tickerKeys` fold comes from the accumulator
or from some trade of the list. -/
theorem tickerKeys_go_mem (l : List TradeExec) :
    ∀ (acc : List (Option String × ℕ)) (k : Option String × ℕ),
      k ∈ l.foldl (fun acc t =>
        if (t.ticker, t.stock_id) ∈ acc then acc else acc ++ [(t.ticker, t.stock_id)]) acc →
      k ∈ acc ∨ ∃ t ∈ l, (t.ticker, t.stock_id) = k := by
  induction l with
  | nil => intro acc k h; exact Or.inl (by simpa using h)
  | cons t ts ih =>
    intro acc k h
    rw [List.foldl_cons] at h
    by_cases hk : (t.ticker, t.stock_id) ∈ acc
    · rw [if_pos hk] at h
      rcases ih acc k h with h1 | ⟨u, hu, he⟩
      · exact Or.inl h1
      · exact Or.inr ⟨u, List.mem_cons_of_mem t hu, he⟩
    · rw [if_neg hk] at h
      rcases ih _ k h with h1 | ⟨u, hu, he⟩
      · rcases List.mem_append.mp h1 with h2 | h2
        · exact Or.inl h2
        · exact Or.inr ⟨t, List.mem_cons_self t ts, (List.mem_singleton.mp h2).symm⟩
      · exact Or.inr ⟨u, List.mem_cons_of_mem t hu, he⟩

theorem mem_of_mem_tickerKeys {l : List TradeExec} {k : Option String × ℕ}
    (h : k ∈ tickerKeys l) : ∃ t ∈ l, (t.ticker, t.stock_id) = k := by
  rcases tickerKeys_go_mem l [] k h with h1 | h1
  · simp at h1
  · exact h1

theorem estNotional_pos (b : String) : 0 < estNotional b := by
  unfold estNotional
  by_cases h1 : b = "Large"
  · rw [if_pos h1]; norm_num
  · rw [if_neg h1]
    by_cases h2 : b = "Medium"
    · rw [if_pos h2]; norm_num
    · rw [if_neg h2]; norm_num

/-- Every `trade_focus` group aggregates a nonempty set of trades, so its
`total_notional` is positive. -/
theorem tradeFocus_total_pos {trades : List TradeExec} {now : ℚ} {c : ℕ}
    {g : TickerAgg} (hg : g ∈ tradeFocus trades now c) : 0 < g.total_notional := by
  rcases List.mem_map.mp hg with ⟨k, hk, he⟩
  rcases mem_of_mem_tickerKeys hk with ⟨t, ht, hkey⟩
  have hmem : t ∈ (tradeValues trades now c).filter
      fun u => decide (u.ticker = k.1 ∧ u.stock_id = k.2) := by
    rw [List.mem_filter]
    refine ⟨ht, ?_⟩
    have h1 : t.ticker = k.1 := by rw [← hkey]
    have h2 : t.stock_id = k.2 := by rw [← hkey]
    simp [h1, h2]
  have hne : (tradeValues trades now c).filter
      (fun u => decide (u.ticker = k.1 ∧ u.stock_id = k.2)) ≠ [] :=
    List.ne_nil_of_mem hmem
  have : g.total_notional = (((tradeValues trades now c).filter
      (fun u => decide (u.ticker = k.1 ∧ u.stock_id = k.2))).map
        fun u => estNotional u.notional_bucket).sum := by
    rw [← he]; rfl
  rw [this]
  apply List.sum_pos
  · intro x hx
    rcases List.mem_map.mp hx with ⟨u, _, he2⟩
    exact he2 ▸ estNotional_pos u.notional_bucket
  · simpa using hne

/-! ## Algebraic lemmas on sums of squares (for the HHI range properties) -/

theorem sum_sq_nonneg (ws : List ℚ) : 0 ≤ (ws.map fun w => w * w).sum := by
  apply List.sum_nonneg
  intro x hx
  rcases List.mem_map.mp hx with ⟨w, _, hw⟩
  exact hw ▸ mul_self_nonneg w

theorem sum_sq_le_sq_sum (ws : List ℚ) (h : ∀ w ∈ ws, 0 ≤ w) :
    (ws.map fun w => w * w).sum ≤ ws.sum * ws.sum := by
  induction ws with
  | nil => simp
  | cons w ws ih =>
    have hw : 0 ≤ w := h w (List.mem_cons_self _ _)
    have hws : ∀ x ∈ ws, 0 ≤ x := fun x hx => h x (List.mem_cons_of_mem _ hx)
    have hs : 0 ≤ ws.sum := List.sum_nonneg hws
    have hih := ih hws
    simp only [List.map_cons, List.sum_cons]
    nlinarith [mul_nonneg hw hs]

theorem all_zero_of_sum_eq_zero (ws : List ℚ) (h : ∀ w ∈ ws, 0 ≤ w)
    (hz : ws.sum = 0) : ∀ w ∈ ws, w = 0 := by
  induction ws with
  | nil => intro w hw; simp at hw
  | cons w ws ih =>
    have hw : 0 ≤ w := h w (List.mem_cons_self _ _)
    have hws : ∀ x ∈ ws, 0 ≤ x := fun x hx => h x (List.mem_cons_of_mem _ hx)
    have hs : 0 ≤ ws.sum := List.sum_nonneg hws
    rw [List.sum_cons] at hz
    have hw0 : w = 0 := by linarith
    have hs0 : ws.sum = 0 := by linarith
    intro x hx
    rcases List.mem_cons.mp hx with h1 | h1
    · rw [h1]; exact hw0
    · exact ih hws hs0 x h1

theorem filter_nonzero_nil_of_all_zero (ws : List ℚ) (h : ∀ w ∈ ws, w = 0) :
    ws.filter (fun w => decide (w ≠ 0)) = [] := by
  induction ws with
  | nil => rfl
  | cons w ws ih =>
    have hw : w = 0 := h w (List.mem_cons_self _ _)
    rw [List.filter_cons]
    rw [hw]
    simp only [ne_eq, not_true, decide_False, Bool.false_eq_true, if_false]
    exact ih fun x hx => h x (List.mem_cons_of_mem _ hx)

theorem sum_sq_zero_of_filter_nil (ws : List ℚ)
    (h : ws.filter (fun w => decide (w ≠ 0)) = []) :
    (ws.map fun w => w * w).sum = 0 := by
  induction ws with
  | nil => rfl
  | cons w ws ih =>
    rw [List.filter_cons] at h
    by_cases hw : w = 0
    · rw [hw] at h ⊢
      simp only [ne_eq, not_true, decide_False, Bool.false_eq_true, if_false] at h
      simp only [List.map_cons, List.sum_cons, mul_zero, zero_add]
      exact ih h
    · exfalso
      have : decide (w ≠ 0) = true := by simp [hw]
      rw [this] at h
      simp at h

/-- Under nonnegative weights with sum at most one: the sum of squared
weights is `1` exactly when the list of nonzero weights is `[1]`. -/
theorem sum_sq_eq_one_iff (ws : List ℚ) (h : ∀ w ∈ ws, 0 ≤ w)
    (hsum : ws.sum ≤ 1) :
    (ws.map fun w => w * w).sum = 1 ↔ ws.filter (fun w => decide (w ≠ 0)) = [1] := by
  induction ws with
  | nil => simp
  | cons w ws ih =>
    have hw : 0 ≤ w := h w (List.mem_cons_self _ _)
    have hws : ∀ x ∈ ws, 0 ≤ x := fun x hx => h x (List.mem_cons_of_mem _ hx)
    have hs : 0 ≤ ws.sum := List.sum_nonneg hws
    rw [List.sum_cons] at hsum
    simp only [List.map_cons, List.sum_cons, List.filter_cons]
    by_cases hw0 : w = 0
    · rw [hw0]
      simp only [ne_eq, not_true, decide_False, Bool.false_eq_true, if_false, mul_zero,
        zero_add]
      exact ih hws (by linarith)
    · have hdec : decide (w ≠ 0) = true := by simp [hw0]
      rw [hdec]
      simp only [ite_true]
      constructor
      · intro h1
        have hwpos : 0 < w := lt_of_le_of_ne hw (Ne.symm hw0)
        have hH : (ws.map fun x => x * x).sum ≤ ws.sum * ws.sum :=
          sum_sq_le_sq_sum ws hws
        have hs0 : ws.sum = 0 := by
          by_contra hne
          have hspos : 0 < ws.sum := lt_of_le_of_ne hs (Ne.symm hne)
          nlinarith [mul_pos hwpos hspos]
        have hallz : ∀ x ∈ ws, x = 0 := all_zero_of_sum_eq_zero ws hws hs0
        have hsq0 : (ws.map fun x => x * x).sum = 0 :=
          sum_sq_zero_of_filter_nil ws (filter_nonzero_nil_of_all_zero ws hallz)
        have hw1 : w = 1 := by nlinarith [hsq0, h1]
        rw [hw1, filter_nonzero_nil_of_all_zero ws hallz]
      · intro h1
        have h2 : w = 1 ∧ ws.filter (fun x => decide (x ≠ 0)) = [] := by
          constructor
          · have := List.head_eq_of_cons_eq h1
            exact this
          · exact List.tail_eq_of_cons_eq h1
        rw [h2.1, sum_sq_zero_of_filter_nil ws h2.2]
        norm_num

/-! ## Unfolding lemmas for the portfolio view -/

theorem ana_portfolio_eq_nil (snaps : List Snapshot) (positions : List Position)
    (c : ℕ) (h : posData snaps positions c = []) :
    ana_client_portfolio_risk snaps positions c = none := by
  unfold ana_client_portfolio_risk
  rw [h]

theorem ana_portfolio_eq_cons (snaps : List Snapshot) (positions : List Position)
    (c : ℕ) (p : Position) (ps : List Position)
    (h : posData snaps positions c = p :: ps) :
    ana_client_portfolio_risk snaps positions c = some
      { portfolio_volatility := roundTo 4 (totalWeightedVol (p :: ps))
        max_position_weight := qMax p.weight (ps.map Position.weight)
        total_positions := (p :: ps).length
        large_positions := (p :: ps).countP fun q => decide (q.weight > 0.10)
        avg_stock_volatility := 0.25
        high_vol_exposure := 0.0
        hhi_concentration := roundTo 4 (hhiOf (p :: ps))
        effective_num_positions := roundTo 1 (effectiveNumPositions (p :: ps))
        hhi_risk_level :=
          if 0.25 ≤ hhiOf (p :: ps) then "Very Concentrated"
          else if 0.15 ≤ hhiOf (p :: ps) then "Concentrated"
          else if 0.10 ≤ hhiOf (p :: ps) then "Moderate"
          else "Diversified"
        volatility_risk_level :=
          if 0.25 ≤ totalWeightedVol (p :: ps) then "High"
          else if 0.15 ≤ totalWeightedVol (p :: ps) then "Medium"
          else "Low"
        concentration_risk_level :=
          if 0.20 ≤ qMax p.weight (ps.map Position.weight) then "Concentrated"
          else if 0.10 ≤ qMax p.weight (ps.map Position.weight) then "Moderate"
          else "Diversified" } := by
  unfold ana_client_portfolio_risk
  rw [h]

/-! ## Claim C1 -/

/-- C1, as stated, is false on the code: the view's `hhi_concentration`
column is `ROUND(hhi, 4)`, not the exact sum of squared weights.  At a
single position of weight `0.123` the exact HHI is `0.015129` but the
returned column is `0.0151`. -/
theorem C1_counterexample :
    (ana_client_portfolio_risk [⟨1, 1, 0⟩] [⟨1, 1, (123 : ℚ)/1000, 0⟩] 1).map
        PortfolioRiskRow.hhi_concentration = some (151/10000) ∧
      hhiOf (posData [⟨1, 1, 0⟩] [⟨1, 1, (123 : ℚ)/1000, 0⟩] 1) = 15129/1000000 ∧
      ((151 : ℚ)/10000) ≠ 15129/1000000 := by
  refine ⟨?_, ?_, by norm_num⟩
  · norm_num [ana_client_portfolio_risk, posData, latestSnapId, hhiOf, roundTo, roundAwayZ]
  · norm_num [posData, latestSnapId, hhiOf]

/-- C1 (amended): for every client whose latest snapshot (by maximal
`snapshot_id`) has at least one joined position, the view returns a row
whose `hhi_concentration` is the sum of squared weights rounded to 4
decimal places, whose `effective_num_positions` is `1/HHI` (when
`HHI > 0`, else `0`) rounded to 1 decimal place, and whose
`hhi_risk_level` buckets the unrounded HHI at the inclusive lower bounds
`0.25 / 0.15 / 0.10`; for a client with no such position no row is
produced. -/
theorem C1_amended (snaps : List Snapshot) (positions : List Position) (c : ℕ) :
    (posData snaps positions c = [] →
      ana_client_portfolio_risk snaps positions c = none) ∧
    (posData snaps positions c ≠ [] → ∃ row : PortfolioRiskRow,
      ana_client_portfolio_risk snaps positions c = some row ∧
      row.hhi_concentration = roundTo 4 (hhiOf (posData snaps positions c)) ∧
      row.effective_num_positions =
        roundTo 1 (if 0 < hhiOf (posData snaps positions c)
          then 1 / hhiOf (posData snaps positions c) else 0) ∧
      row.hhi_risk_level =
        (if 0.25 ≤ hhiOf (posData snaps positions c) then "Very Concentrated"
         else if 0.15 ≤ hhiOf (posData snaps positions c) then "Concentrated"
         else if 0.10 ≤ hhiOf (posData snaps positions c) then "Moderate"
         else "Diversified")) := by
  constructor
  · intro h
    exact ana_portfolio_eq_nil snaps positions c h
  · intro hne
    cases h : posData snaps positions c with
    | nil => exact absurd h hne
    | cons p ps =>
      refine ⟨_, ana_portfolio_eq_cons snaps positions c p ps h, ?_, ?_, ?_⟩
      · rfl
      · rfl
      · rfl

/-- Witness for C1 (amended), at one client with one snapshot holding a
single position of weight `1/2`. -/
theorem C1_witness :
    posData [⟨1, 1, 0⟩] [⟨1, 1, (1 : ℚ)/2, 0⟩] 1 ≠ [] ∧
    (∃ row : PortfolioRiskRow,
      ana_client_portfolio_risk [⟨1, 1, 0⟩] [⟨1, 1, (1 : ℚ)/2, 0⟩] 1 = some row ∧
      row.hhi_concentration =
        roundTo 4 (hhiOf (posData [⟨1, 1, 0⟩] [⟨1, 1, (1 : ℚ)/2, 0⟩] 1)) ∧
      row.effective_num_positions =
        roundTo 1 (if 0 < hhiOf (posData [⟨1, 1, 0⟩] [⟨1, 1, (1 : ℚ)/2, 0⟩] 1)
          then 1 / hhiOf (posData [⟨1, 1, 0⟩] [⟨1, 1, (1 : ℚ)/2, 0⟩] 1) else 0) ∧
      row.hhi_risk_level =
        (if 0.25 ≤ hhiOf (posData [⟨1, 1, 0⟩] [⟨1, 1, (1 : ℚ)/2, 0⟩] 1)
         then "Very Concentrated"
         else if 0.15 ≤ hhiOf (posData [⟨1, 1, 0⟩] [⟨1, 1, (1 : ℚ)/2, 0⟩] 1)
         then "Concentrated"
         else if 0.10 ≤ hhiOf (posData [⟨1, 1, 0⟩] [⟨1, 1, (1 : ℚ)/2, 0⟩] 1)
         then "Moderate"
         else "Diversified")) :=
  ⟨by decide, (C1_amended [⟨1, 1, 0⟩] [⟨1, 1, (1 : ℚ)/2, 0⟩] 1).2 (by decide)⟩

/-! ## Characterization of the view's latest-snapshot selection -/

theorem latestSnapId_eq_none (snaps : List Snapshot) (c : ℕ) :
    latestSnapId snaps c = none ↔ ∀ s ∈ snaps, s.client_id ≠ c := by
  unfold latestSnapId
  cases h : (snaps.filter fun s => decide (s.client_id = c)).map Snapshot.snapshot_id with
  | nil =>
    rw [List.map_eq_nil_iff] at h
    constructor
    · intro _ s hs hc
      have hmem : s ∈ snaps.filter fun s => decide (s.client_id = c) := by
        rw [List.mem_filter]
        exact ⟨hs, by simp [hc]⟩
      rw [h] at hmem
      simp at hmem
    · intro _
      rfl
  | cons x xs =>
    have hx : x ∈ (snaps.filter fun s => decide (s.client_id = c)).map Snapshot.snapshot_id := by
      rw [h]; exact List.mem_cons_self x xs
    rcases List.mem_map.mp hx with ⟨s, hsf, _⟩
    rw [List.mem_filter] at hsf
    constructor
    · intro he
      exact absurd he (by simp)
    · intro hall
      exact absurd (show s.client_id = c by simpa using hsf.2) (hall s hsf.1)

theorem latestSnapId_spec (snaps : List Snapshot) (c : ℕ) (sid : ℕ) :
    latestSnapId snaps c = some sid ↔
      (∃ s ∈ snaps, s.client_id = c ∧ s.snapshot_id = sid) ∧
      ∀ s ∈ snaps, s.client_id = c → s.snapshot_id ≤ sid := by
  have hmem : ∀ y : ℕ,
      (y ∈ (snaps.filter fun s => decide (s.client_id = c)).map Snapshot.snapshot_id ↔
        ∃ s ∈ snaps, s.client_id = c ∧ s.snapshot_id = y) := by
    intro y
    simp only [List.mem_map, List.mem_filter, decide_eq_true_eq]
    constructor
    · rintro ⟨s, ⟨hs, hc⟩, he⟩
      exact ⟨s, hs, hc, he⟩
    · rintro ⟨s, hs, hc, he⟩
      exact ⟨s, ⟨hs, hc⟩, he⟩
  unfold latestSnapId
  cases h : (snaps.filter fun s => decide (s.client_id = c)).map Snapshot.snapshot_id with
  | nil =>
    constructor
    · intro he
      exact absurd he (by simp)
    · rintro ⟨⟨s, hs, hc, he⟩, -⟩
      have hmm := (hmem sid).mpr ⟨s, hs, hc, he⟩
      rw [h] at hmm
      simp at hmm
  | cons x xs =>
    constructor
    · intro he
      have he2 : some (xs.foldl max x) = some sid := he
      have hm : xs.foldl max x = sid := by injection he2
      have h1 : sid ∈ x :: xs := hm ▸ foldl_max_mem x xs
      have h2 : sid ∈ (snaps.filter fun s => decide (s.client_id = c)).map Snapshot.snapshot_id := by
        rw [h]; exact h1
      refine ⟨(hmem sid).mp h2, ?_⟩
      intro s hs hc
      have h3 : s.snapshot_id ∈ x :: xs := by
        rw [← h]
        exact (hmem s.snapshot_id).mpr ⟨s, hs, hc, rfl⟩
      exact hm ▸ le_foldl_max x xs s.snapshot_id h3
    · rintro ⟨⟨s, hs, hc, he⟩, hub⟩
      have hm : xs.foldl max x ∈ x :: xs := foldl_max_mem x xs
      have hm2 : xs.foldl max x ∈
          (snaps.filter fun s => decide (s.client_id = c)).map Snapshot.snapshot_id := by
        rw [h]; exact hm
      rcases (hmem _).mp hm2 with ⟨s', hs', hc', he'⟩
      have hle : xs.foldl max x ≤ sid := he' ▸ hub s' hs' hc'
      have hge : sid ≤ xs.foldl max x := by
        have hsm : sid ∈ x :: xs := by
          rw [← h]
          exact (hmem sid).mpr ⟨s, hs, hc, he⟩
        exact le_foldl_max x xs sid hsm
      show some (xs.foldl max x) = some sid
      rw [le_antisymm hle hge]

/-! ## Claim C6 -/

/-- C6, as stated, is false on the code: the view's `latest_snap` CTE takes
`MAX(snapshot_id)`, not the snapshot with the maximum `as_of_date`.  With
snapshot 1 dated 100 and snapshot 2 dated 50 for the same client, the view
reads the positions of snapshot 2 (higher id, older date), not those of the
maximum-date snapshot 1. -/
theorem C6_counterexample :
    posData [⟨1, 1, 100⟩, ⟨2, 1, 50⟩]
        [⟨1, 1, (1 : ℚ)/2, 0⟩, ⟨2, 1, (9 : ℚ)/10, 0⟩] 1 = [⟨2, 1, (9 : ℚ)/10, 0⟩] ∧
      specLatestDatePositions [⟨1, 1, 100⟩, ⟨2, 1, 50⟩]
        [⟨1, 1, (1 : ℚ)/2, 0⟩, ⟨2, 1, (9 : ℚ)/10, 0⟩] 1 = [⟨1, 1, (1 : ℚ)/2, 0⟩] ∧
      posData [⟨1, 1, 100⟩, ⟨2, 1, 50⟩]
          [⟨1, 1, (1 : ℚ)/2, 0⟩, ⟨2, 1, (9 : ℚ)/10, 0⟩] 1 ≠
        specLatestDatePositions [⟨1, 1, 100⟩, ⟨2, 1, 50⟩]
          [⟨1, 1, (1 : ℚ)/2, 0⟩, ⟨2, 1, (9 : ℚ)/10, 0⟩] 1 ∧
      (ana_client_portfolio_risk [⟨1, 1, 100⟩, ⟨2, 1, 50⟩]
          [⟨1, 1, (1 : ℚ)/2, 0⟩, ⟨2, 1, (9 : ℚ)/10, 0⟩] 1).map
        PortfolioRiskRow.max_position_weight = some (9/10) := by
  refine ⟨?_, ?_, ?_, ?_⟩
  · norm_num [posData, latestSnapId]
  · norm_num [specLatestDatePositions, specLatestDateSnap, topBy]
  · norm_num [posData, latestSnapId, specLatestDatePositions, specLatestDateSnap, topBy,
      Position.mk.injEq]
  · norm_num [ana_client_portfolio_risk, posData, latestSnapId, qMax]

/-- C6 (amended): the set of positions over which the view computes all its
metrics is exactly the set of positions whose `snapshot_id` equals the
maximum `snapshot_id` among the client's snapshots (which coincides with the
maximum-`as_of_date` snapshot only when ids are assigned in date order). -/
theorem C6_amended (snaps : List Snapshot) (positions : List Position) (c : ℕ)
    (p : Position) :
    p ∈ posData snaps positions c ↔
      p ∈ positions ∧
        (∃ s ∈ snaps, s.client_id = c ∧ s.snapshot_id = p.snapshot_id) ∧
        ∀ s ∈ snaps, s.client_id = c → s.snapshot_id ≤ p.snapshot_id := by
  unfold posData
  cases h : latestSnapId snaps c with
  | none =>
    rw [latestSnapId_eq_none] at h
    simp only [List.not_mem_nil, false_iff, not_and]
    rintro _ ⟨s, hs, hc, _⟩ _
    exact absurd hc (h s hs)
  | some sid =>
    rw [List.mem_filter]
    constructor
    · rintro ⟨hp, hsid⟩
      have hsid2 : p.snapshot_id = sid := by simpa using hsid
      have := (latestSnapId_spec snaps c sid).mp h
      rw [hsid2]
      exact ⟨hp, this.1, this.2⟩
    · rintro ⟨hp, hex, hub⟩
      have : latestSnapId snaps c = some p.snapshot_id :=
        (latestSnapId_spec snaps c p.snapshot_id).mpr ⟨hex, hub⟩
      rw [h] at this
      have hsid : sid = p.snapshot_id := by injection this
      exact ⟨hp, by simp [hsid]⟩

/-! ## Claim C9 -/

theorem hhiOf_eq_weights (l : List Position) :
    hhiOf l = ((l.map Position.weight).map fun w => w * w).sum := by
  unfold hhiOf
  rw [List.map_map]
  rfl

/-- C9, as stated, is false on the code: with weights each in `[0,1]` but
summing above `1` (which the system does not prevent: the spec itself says
weight sums are not enforced), the HHI exceeds `1`.  Two positions of
weight `1` give HHI `= 2`. -/
theorem C9_counterexample :
    (∀ p ∈ ([⟨1, 1, 1, 0⟩, ⟨1, 2, 1, 0⟩] : List Position),
      0 ≤ p.weight ∧ p.weight ≤ 1) ∧
    hhiOf ([⟨1, 1, 1, 0⟩, ⟨1, 2, 1, 0⟩] : List Position) = 2 ∧
    ¬ hhiOf ([⟨1, 1, 1, 0⟩, ⟨1, 2, 1, 0⟩] : List Position) ≤ 1 := by
  refine ⟨?_, ?_, ?_⟩
  · intro p hp
    fin_cases hp <;> norm_num
  · norm_num [hhiOf]
  · norm_num [hhiOf]

/-- C9 (amended): for nonnegative weights summing to at most `1`, the HHI
lies in `[0,1]`; it equals `1` exactly when the list of nonzero weights is
`[1]` (one fully-weighted position, any number of zero-weight ones); and
for `N` equal-weighted positions of weight `1/N`, the HHI is `1/N` and the
effective number of positions is `N`. -/
theorem C9_amended :
    (∀ l : List Position, (∀ p ∈ l, 0 ≤ p.weight) →
      (l.map Position.weight).sum ≤ 1 → 0 ≤ hhiOf l ∧ hhiOf l ≤ 1) ∧
    (∀ l : List Position, (∀ p ∈ l, 0 ≤ p.weight) →
      (l.map Position.weight).sum ≤ 1 →
      (hhiOf l = 1 ↔
        (l.map Position.weight).filter (fun w => decide (w ≠ 0)) = [1])) ∧
    (∀ n : ℕ, 0 < n → ∀ sid stid : ℕ, ∀ mv : ℚ,
      hhiOf (List.replicate n ⟨sid, stid, 1/(n : ℚ), mv⟩) = 1/(n : ℚ) ∧
      effectiveNumPositions (List.replicate n ⟨sid, stid, 1/(n : ℚ), mv⟩) = (n : ℚ)) := by
  have wnonneg : ∀ l : List Position, (∀ p ∈ l, 0 ≤ p.weight) →
      ∀ w ∈ l.map Position.weight, 0 ≤ w := by
    intro l h w hw
    rcases List.mem_map.mp hw with ⟨p, hp, he⟩
    exact he ▸ h p hp
  refine ⟨?_, ?_, ?_⟩
  · intro l h hsum
    rw [hhiOf_eq_weights]
    constructor
    · exact sum_sq_nonneg (l.map Position.weight)
    · have h1 := sum_sq_le_sq_sum (l.map Position.weight) (wnonneg l h)
      have h2 : 0 ≤ (l.map Position.weight).sum := List.sum_nonneg (wnonneg l h)
      nlinarith
  · intro l h hsum
    rw [hhiOf_eq_weights]
    exact sum_sq_eq_one_iff (l.map Position.weight) (wnonneg l h) hsum
  · intro n hn sid stid mv
    have hn0 : (n : ℚ) ≠ 0 := Nat.cast_ne_zero.mpr hn.ne'
    have hh : hhiOf (List.replicate n (⟨sid, stid, 1/(n : ℚ), mv⟩ : Position)) = 1/(n : ℚ) := by
      unfold hhiOf
      rw [List.map_replicate, List.sum_replicate, nsmul_eq_mul]
      field_simp
    refine ⟨hh, ?_⟩
    unfold effectiveNumPositions
    rw [hh]
    have hp : 0 < 1/(n : ℚ) := by positivity
    rw [if_pos hp, one_div_one_div]

/-- Witness for C9 (amended): the range bound at two weights `1/2`, and the
equal-weight law at `N = 4`. -/
theorem C9_witness :
    (0 ≤ hhiOf ([⟨1, 1, (1 : ℚ)/2, 0⟩, ⟨1, 2, (1 : ℚ)/2, 0⟩] : List Position) ∧
      hhiOf ([⟨1, 1, (1 : ℚ)/2, 0⟩, ⟨1, 2, (1 : ℚ)/2, 0⟩] : List Position) ≤ 1) ∧
    hhiOf (List.replicate 4 (⟨1, 1, 1/(4 : ℚ), 0⟩ : Position)) = 1/(4 : ℚ) ∧
    effectiveNumPositions (List.replicate 4 (⟨1, 1, 1/(4 : ℚ), 0⟩ : Position)) = (4 : ℚ) :=
  ⟨C9_amended.1 [⟨1, 1, (1 : ℚ)/2, 0⟩, ⟨1, 2, (1 : ℚ)/2, 0⟩]
      (by intro p hp; fin_cases hp <;> norm_num) (by norm_num),
    (C9_amended.2.2 4 (by norm_num) 1 1 0).1,
    (C9_amended.2.2 4 (by norm_num) 1 1 0).2⟩

/-! ## Unfolding lemmas for the engagement view -/

theorem ana_engagement_eq (clients : List Client) (calls : List CallLog)
    (trades : List TradeExec) (now : ℚ) (c : ℕ) (cl : Client)
    (hfind : clients.find? (fun x => decide (x.client_id = c)) = some cl) :
    ana_client_engagement_momentum clients calls trades now c =
      some (engagementRowOf calls trades now c) := by
  unfold ana_client_engagement_momentum
  rw [hfind]

theorem ana_engagement_inv (clients : List Client) (calls : List CallLog)
    (trades : List TradeExec) (now : ℚ) (c : ℕ) (row : EngagementRow)
    (h : ana_client_engagement_momentum clients calls trades now c = some row) :
    row = engagementRowOf calls trades now c := by
  unfold ana_client_engagement_momentum at h
  cases hf : clients.find? fun x => decide (x.client_id = c) with
  | none =>
    rw [hf] at h
    exact absurd h (by simp)
  | some cl =>
    rw [hf] at h
    injection h with h2
    exact h2.symm

theorem callsDecayed_eq_none (calls : List CallLog) (now : ℚ) (c : ℕ)
    (h : (callEvents calls now).filter (fun e => decide (e.client_id = c)) = []) :
    callsDecayed calls now c = none := by
  unfold callsDecayed
  rw [h]

theorem tradesDecayed_eq_none (trades : List TradeExec) (now : ℚ) (c : ℕ)
    (h : (tradeEvents trades now).filter (fun t => decide (t.client_id = c)) = []) :
    tradesDecayed trades now c = none := by
  unfold tradesDecayed
  rw [h]

/-- The `COALESCE`d decayed call duration equals the sum of
`duration × decay` over the client's windowed calls (also when the group is
absent and `COALESCE` yields `0`). -/
theorem callsDecayedDuration_eq (calls : List CallLog) (now : ℚ) (c : ℕ) :
    ((callsDecayed calls now c).map CallsDecayed.decayed_duration).getD 0 =
      (((callEvents calls now).filter fun e => decide (e.client_id = c)).map
        fun e => e.duration_minutes * decayWeight14 (now - e.call_timestamp)).sum := by
  unfold callsDecayed
  cases h : (callEvents calls now).filter fun e => decide (e.client_id = c) with
  | nil => simp
  | cons e es => simp

/-- The `COALESCE`d decayed weighted trade count equals the sum of
`decay × size_weight` over the client's windowed trades. -/
theorem tradesDecayedWeighted_eq (trades : List TradeExec) (now : ℚ) (c : ℕ) :
    ((tradesDecayed trades now c).map TradesDecayed.decayed_weighted_count).getD 0 =
      (((tradeEvents trades now).filter fun t => decide (t.client_id = c)).map
        fun t => decayWeight14 (now - t.trade_timestamp) * sizeWeight t.notional_bucket).sum := by
  unfold tradesDecayed
  cases h : (tradeEvents trades now).filter fun t => decide (t.client_id = c) with
  | nil => simp
  | cons t ts => simp

theorem natCast_half_pos_iff (n : ℕ) : (0 : ℚ) < (n : ℚ) * 0.5 ↔ 0 < n := by
  constructor
  · intro h
    by_contra h0
    push_neg at h0
    have hn : n = 0 := Nat.le_zero.mp h0
    rw [hn] at h
    norm_num at h
  · intro h
    have hn : (0 : ℚ) < (n : ℚ) := Nat.cast_pos.mpr h
    nlinarith

/-- With both 30-day counts zero, the view's trend CASE yields
"Cooling Off" whenever both prior counts are positive, and "Dormant"
otherwise (the Cooling Off arm is tested before the Dormant arm). -/
theorem engagementTrend_both_zero (cp tp : ℕ) :
    engagementTrend 0 cp 0 tp =
      if 0 < cp ∧ 0 < tp then "Cooling Off" else "Dormant" := by
  unfold engagementTrend
  have h1 : ¬((0 : ℕ) : ℚ) > (cp : ℚ) * 1.5 := by
    push_neg
    positivity
  have h2 : ¬((0 : ℕ) : ℚ) > (tp : ℚ) * 1.5 := by
    push_neg
    positivity
  rw [if_neg (by push_neg; exact ⟨not_lt.mp h1, not_lt.mp h2⟩)]
  have h3 : (((0 : ℕ) : ℚ) < (cp : ℚ) * 0.5 ∧ ((0 : ℕ) : ℚ) < (tp : ℚ) * 0.5) ↔
      (0 < cp ∧ 0 < tp) := by
    rw [Nat.cast_zero, natCast_half_pos_iff, natCast_half_pos_iff]
  by_cases h : 0 < cp ∧ 0 < tp
  · rw [if_pos (h3.mpr h), if_pos h]
  · rw [if_neg (fun hc => h (h3.mp hc)), if_neg h, if_pos ⟨rfl, rfl⟩]

theorem natCast_onehalf_pos_iff (n : ℕ) : ((n : ℚ) > ((0 : ℕ) : ℚ) * 1.5) ↔ 0 < n := by
  rw [Nat.cast_zero, zero_mul]
  exact Nat.cast_pos

/-- With both prior counts zero, the view's trend CASE yields
"Accelerating" whenever a 30-day count is positive (the `>` comparison
degenerates to `count > 0`), and "Dormant" otherwise; "Cooling Off" is
impossible. -/
theorem engagementTrend_priors_zero (c30 t30 : ℕ) :
    engagementTrend c30 0 t30 0 =
      if 0 < c30 ∨ 0 < t30 then "Accelerating" else "Dormant" := by
  unfold engagementTrend
  by_cases h : 0 < c30 ∨ 0 < t30
  · rw [if_pos, if_pos h]
    rcases h with h | h
    · exact Or.inl ((natCast_onehalf_pos_iff c30).mpr h)
    · exact Or.inr ((natCast_onehalf_pos_iff t30).mpr h)
  · have hc : c30 = 0 := Nat.eq_zero_of_not_pos fun hp => h (Or.inl hp)
    have ht : t30 = 0 := Nat.eq_zero_of_not_pos fun hp => h (Or.inr hp)
    subst hc
    subst ht
    rw [if_neg (by norm_num), if_neg (by norm_num), if_pos ⟨rfl, rfl⟩,
      if_neg (by norm_num)]

/-! ## Claim C2 -/

/-- C2, as stated, is false on the code, in two ways exhibited at one
input: the event window is `days_ago ≤ 90` with no lower bound, so a
future-dated call (here 7 days in the future, decay weight `2`) also
contributes; and the returned score is rounded to 1 decimal place.  The
trailing-90-days formula of the claim gives `0.14`, but the view returns
`3.1`. -/
theorem C2_counterexample :
    (ana_client_engagement_momentum [⟨1, "X"⟩] [⟨1, 999, 1⟩, ⟨1, 1007, 10⟩] [] 1000 1).map
        EngagementRow.engagement_score_decayed = some (31/10) ∧
      ((([⟨1, 999, 1⟩, ⟨1, 1007, 10⟩] : List CallLog).filter fun e =>
          decide (0 ≤ 1000 - e.call_timestamp ∧ 1000 - e.call_timestamp ≤ 90 ∧
            e.client_id = 1)).map
        fun e => e.duration_minutes * decayWeight14 (1000 - e.call_timestamp)).sum * 0.15
        = 7/50 ∧
      ((31 : ℚ)/10) ≠ 7/50 := by
  refine ⟨?_, ?_, by norm_num⟩
  · rw [ana_engagement_eq [⟨1, "X"⟩] [⟨1, 999, 1⟩, ⟨1, 1007, 10⟩] [] 1000 1 ⟨1, "X"⟩ rfl]
    norm_num [engagementRowOf, callsDecayed, tradesDecayed, callEvents, tradeEvents,
      decayWeight14, sizeWeight, roundTo, roundAwayZ]
  · norm_num [decayWeight14]

/-- C2 (amended): for every client present in `src_clients`, the view
returns a row whose `engagement_score_decayed` equals
`(Σ duration × decay) × 0.15 + (Σ decay × size_weight) × 2.5` rounded to 1
decimal place, where the sums range over the client's events with
`now − timestamp ≤ 90` days (future-dated events included; the window has
no lower bound), `decay(d) = 1/(1 + d/14)` for both calls and trades, and
`size_weight` is `3` for Large, `1.5` for Medium and `1` otherwise. -/
theorem C2_amended (clients : List Client) (calls : List CallLog)
    (trades : List TradeExec) (now : ℚ) (c : ℕ) (cl : Client)
    (hfind : clients.find? (fun x => decide (x.client_id = c)) = some cl) :
    ∃ row : EngagementRow,
      ana_client_engagement_momentum clients calls trades now c = some row ∧
      row.engagement_score_decayed = roundTo 1 (
        (((callEvents calls now).filter fun e => decide (e.client_id = c)).map
          fun e => e.duration_minutes * decayWeight14 (now - e.call_timestamp)).sum * 0.15 +
        (((tradeEvents trades now).filter fun t => decide (t.client_id = c)).map
          fun t => decayWeight14 (now - t.trade_timestamp) * sizeWeight t.notional_bucket).sum
          * 2.5) ∧
      (∀ d : ℚ, decayWeight14 d = 1 / (1 + d / 14)) ∧
      sizeWeight "Large" = 3 ∧ sizeWeight "Medium" = 1.5 ∧ sizeWeight "Small" = 1 := by
  refine ⟨engagementRowOf calls trades now c,
    ana_engagement_eq clients calls trades now c cl hfind, ?_, fun d => rfl, ?_, ?_, ?_⟩
  · show roundTo 1
        (((callsDecayed calls now c).map CallsDecayed.decayed_duration).getD 0 * 0.15 +
          ((tradesDecayed trades now c).map TradesDecayed.decayed_weighted_count).getD 0
            * 2.5) = _
    rw [callsDecayedDuration_eq, tradesDecayedWeighted_eq]
  · simp [sizeWeight] <;> norm_num
  · simp [sizeWeight] <;> norm_num
  · simp [sizeWeight] <;> norm_num

/-- Witness for C2 (amended), at one client with a single 14-day-old call. -/
theorem C2_witness :
    ∃ row : EngagementRow,
      ana_client_engagement_momentum [⟨1, "X"⟩] [⟨1, 986, 2⟩] [] 1000 1 = some row ∧
      row.engagement_score_decayed = roundTo 1 (
        (((callEvents [⟨1, 986, 2⟩] 1000).filter fun e => decide (e.client_id = 1)).map
          fun e => e.duration_minutes * decayWeight14 (1000 - e.call_timestamp)).sum * 0.15 +
        (((tradeEvents [] 1000).filter fun t => decide (t.client_id = 1)).map
          fun t => decayWeight14 (1000 - t.trade_timestamp) * sizeWeight t.notional_bucket).sum
          * 2.5) ∧
      (∀ d : ℚ, decayWeight14 d = 1 / (1 + d / 14)) ∧
      sizeWeight "Large" = 3 ∧ sizeWeight "Medium" = 1.5 ∧ sizeWeight "Small" = 1 :=
  C2_amended [⟨1, "X"⟩] [⟨1, 986, 2⟩] [] 1000 1 ⟨1, "X"⟩ rfl

/-! ## Claim C3 -/

/-- C3, as stated, is false on the code: the CASE tests "Cooling Off"
before "Dormant", so a client whose both 30-day counts are zero but whose
both prior counts are positive (one call and one trade 40 days ago) is
classified "Cooling Off", not "Dormant". -/
theorem C3_counterexample :
    (ana_client_engagement_momentum [⟨1, "X"⟩] [⟨1, 60, 5⟩]
        [⟨1, 1, some "AAA", "Buy", "Small", 60⟩] 100 1).map
        EngagementRow.engagement_trend = some "Cooling Off" ∧
      (ana_client_engagement_momentum [⟨1, "X"⟩] [⟨1, 60, 5⟩]
        [⟨1, 1, some "AAA", "Buy", "Small", 60⟩] 100 1).map
        EngagementRow.calls_last_30d = some 0 ∧
      (ana_client_engagement_momentum [⟨1, "X"⟩] [⟨1, 60, 5⟩]
        [⟨1, 1, some "AAA", "Buy", "Small", 60⟩] 100 1).map
        EngagementRow.trades_last_30d = some 0 ∧
      (ana_client_engagement_momentum [⟨1, "X"⟩] [⟨1, 60, 5⟩]
        [⟨1, 1, some "AAA", "Buy", "Small", 60⟩] 100 1).map
        EngagementRow.calls_prior_30d = some 1 ∧
      (ana_client_engagement_momentum [⟨1, "X"⟩] [⟨1, 60, 5⟩]
        [⟨1, 1, some "AAA", "Buy", "Small", 60⟩] 100 1).map
        EngagementRow.trades_prior_30d = some 1 ∧
      ("Cooling Off" : String) ≠ "Dormant" := by
  rw [ana_engagement_eq [⟨1, "X"⟩] [⟨1, 60, 5⟩] [⟨1, 1, some "AAA", "Buy", "Small", 60⟩]
    100 1 ⟨1, "X"⟩ rfl]
  refine ⟨?_, ?_, ?_, ?_, ?_, by simp⟩ <;>
    norm_num [engagementRowOf, engagementTrend, callsDecayed, tradesDecayed,
      callEvents, tradeEvents]

/-- C3 (amended): when both undecayed 30-day counts are zero, the trend is
"Dormant" unless both prior-period counts are positive, in which case the
earlier-tested "Cooling Off" arm fires. -/
theorem C3_amended (clients : List Client) (calls : List CallLog)
    (trades : List TradeExec) (now : ℚ) (c : ℕ) (row : EngagementRow)
    (hrow : ana_client_engagement_momentum clients calls trades now c = some row)
    (hc : row.calls_last_30d = 0) (ht : row.trades_last_30d = 0) :
    row.engagement_trend =
      if 0 < row.calls_prior_30d ∧ 0 < row.trades_prior_30d then "Cooling Off"
      else "Dormant" := by
  have hinv := ana_engagement_inv clients calls trades now c row hrow
  subst hinv
  have htrend : (engagementRowOf calls trades now c).engagement_trend =
      engagementTrend (engagementRowOf calls trades now c).calls_last_30d
        (engagementRowOf calls trades now c).calls_prior_30d
        (engagementRowOf calls trades now c).trades_last_30d
        (engagementRowOf calls trades now c).trades_prior_30d := rfl
  rw [htrend, hc, ht, engagementTrend_both_zero]

/-- Witness for C3 (amended), at the client of the counterexample input
(both 30-day counts zero, both prior counts one). -/
theorem C3_witness :
    (engagementRowOf [⟨1, 60, 5⟩] [⟨1, 1, some "AAA", "Buy", "Small", 60⟩]
        100 1).engagement_trend =
      if 0 < (engagementRowOf [⟨1, 60, 5⟩] [⟨1, 1, some "AAA", "Buy", "Small", 60⟩]
            100 1).calls_prior_30d ∧
          0 < (engagementRowOf [⟨1, 60, 5⟩] [⟨1, 1, some "AAA", "Buy", "Small", 60⟩]
            100 1).trades_prior_30d
      then "Cooling Off" else "Dormant" :=
  C3_amended [⟨1, "X"⟩] [⟨1, 60, 5⟩] [⟨1, 1, some "AAA", "Buy", "Small", 60⟩] 100 1 _
    (ana_engagement_eq [⟨1, "X"⟩] [⟨1, 60, 5⟩] [⟨1, 1, some "AAA", "Buy", "Small", 60⟩]
      100 1 ⟨1, "X"⟩ rfl)
    (by norm_num [engagementRowOf, callsDecayed, callEvents])
    (by norm_num [engagementRowOf, tradesDecayed, tradeEvents])

/-! ## Claim C4 -/

/-- C4, as stated, is false on the code: with a zero prior count the
"Accelerating" comparison is not skipped — it degenerates to
`count > 0 × 1.5 = 0` and fires.  A client with one 10-day-old call and no
other events (both priors zero) is classified "Accelerating", although the
momentum ratio fields are null as the claim says. -/
theorem C4_counterexample :
    (ana_client_engagement_momentum [⟨1, "X"⟩] [⟨1, 90, 5⟩] [] 100 1).map
        EngagementRow.engagement_trend = some "Accelerating" ∧
      (ana_client_engagement_momentum [⟨1, "X"⟩] [⟨1, 90, 5⟩] [] 100 1).map
        EngagementRow.calls_prior_30d = some 0 ∧
      (ana_client_engagement_momentum [⟨1, "X"⟩] [⟨1, 90, 5⟩] [] 100 1).map
        EngagementRow.trades_prior_30d = some 0 ∧
      (ana_client_engagement_momentum [⟨1, "X"⟩] [⟨1, 90, 5⟩] [] 100 1).map
        EngagementRow.calls_last_30d = some 1 ∧
      (ana_client_engagement_momentum [⟨1, "X"⟩] [⟨1, 90, 5⟩] [] 100 1).map
        EngagementRow.call_momentum = some none ∧
      ("Accelerating" : String) ≠ "Stable" := by
  rw [ana_engagement_eq [⟨1, "X"⟩] [⟨1, 90, 5⟩] [] 100 1 ⟨1, "X"⟩ rfl]
  refine ⟨?_, ?_, ?_, ?_, ?_, by simp⟩ <;>
    norm_num [engagementRowOf, engagementTrend, callsDecayed, tradesDecayed,
      callEvents, tradeEvents]

/-- C4 (amended): a zero prior count produces no error and no infinity —
the momentum ratio field is null — but the comparisons are evaluated as
multiplications, so with both priors zero the trend is "Accelerating"
exactly when some 30-day count is positive, and "Cooling Off" is
unreachable. -/
theorem C4_amended (clients : List Client) (calls : List CallLog)
    (trades : List TradeExec) (now : ℚ) (c : ℕ) (row : EngagementRow)
    (hrow : ana_client_engagement_momentum clients calls trades now c = some row) :
    (row.calls_prior_30d = 0 → row.call_momentum = none) ∧
    (row.trades_prior_30d = 0 → row.trade_momentum = none) ∧
    (row.calls_prior_30d = 0 → row.trades_prior_30d = 0 →
      (row.engagement_trend = "Accelerating" ↔
        0 < row.calls_last_30d ∨ 0 < row.trades_last_30d) ∧
      row.engagement_trend ≠ "Cooling Off") := by
  have hinv := ana_engagement_inv clients calls trades now c row hrow
  subst hinv
  refine ⟨?_, ?_, ?_⟩
  · intro h0
    have hcm : (engagementRowOf calls trades now c).call_momentum =
        if (engagementRowOf calls trades now c).calls_prior_30d = 0 then none
        else some (roundTo 2
          (((engagementRowOf calls trades now c).calls_last_30d : ℚ) /
            ((engagementRowOf calls trades now c).calls_prior_30d : ℚ))) := rfl
    rw [hcm, if_pos h0]
  · intro h0
    have htm : (engagementRowOf calls trades now c).trade_momentum =
        if (engagementRowOf calls trades now c).trades_prior_30d = 0 then none
        else some (roundTo 2
          (((engagementRowOf calls trades now c).trades_last_30d : ℚ) /
            ((engagementRowOf calls trades now c).trades_prior_30d : ℚ))) := rfl
    rw [htm, if_pos h0]
  · intro h0 h1
    have htrend : (engagementRowOf calls trades now c).engagement_trend =
        engagementTrend (engagementRowOf calls trades now c).calls_last_30d
          (engagementRowOf calls trades now c).calls_prior_30d
          (engagementRowOf calls trades now c).trades_last_30d
          (engagementRowOf calls trades now c).trades_prior_30d := rfl
    rw [htrend, h0, h1, engagementTrend_priors_zero]
    by_cases h : 0 < (engagementRowOf calls trades now c).calls_last_30d ∨
        0 < (engagementRowOf calls trades now c).trades_last_30d
    · rw [if_pos h]
      exact ⟨by simp [h], by simp⟩
    · rw [if_neg h]
      constructor
      · constructor
        · intro hd
          simp at hd
        · intro hc
          exact absurd hc h
      · simp

/-- Witness for C4 (amended), at a client with one 10-day-old call and no
trades. -/
theorem C4_witness :
    ((engagementRowOf [⟨1, 90, 5⟩] [] 100 1).calls_prior_30d = 0 →
      (engagementRowOf [⟨1, 90, 5⟩] [] 100 1).call_momentum = none) ∧
    ((engagementRowOf [⟨1, 90, 5⟩] [] 100 1).trades_prior_30d = 0 →
      (engagementRowOf [⟨1, 90, 5⟩] [] 100 1).trade_momentum = none) ∧
    ((engagementRowOf [⟨1, 90, 5⟩] [] 100 1).calls_prior_30d = 0 →
      (engagementRowOf [⟨1, 90, 5⟩] [] 100 1).trades_prior_30d = 0 →
      ((engagementRowOf [⟨1, 90, 5⟩] [] 100 1).engagement_trend = "Accelerating" ↔
        0 < (engagementRowOf [⟨1, 90, 5⟩] [] 100 1).calls_last_30d ∨
          0 < (engagementRowOf [⟨1, 90, 5⟩] [] 100 1).trades_last_30d) ∧
      (engagementRowOf [⟨1, 90, 5⟩] [] 100 1).engagement_trend ≠ "Cooling Off") :=
  C4_amended [⟨1, "X"⟩] [⟨1, 90, 5⟩] [] 100 1 _
    (ana_engagement_eq [⟨1, "X"⟩] [⟨1, 90, 5⟩] [] 100 1 ⟨1, "X"⟩ rfl)

/-! ## Claim C10 -/

/-- C10, as stated, is false on the code: the "trailing 90 days" reading of
its hypothesis is not the code's window.  The SQL filter `days_ago <= 90`
has no lower bound, so a client whose only event is a future-dated call
(here 7 days in the future, decay weight `2`) has no call and no trade in
the trailing 90 days, yet the view returns `calls_last_30d = 1`, decayed
score `3` and trend "Accelerating" — not the claimed zeros and
"Dormant". -/
theorem C10_counterexample :
    (([⟨1, 1007, 10⟩] : List CallLog).filter fun e =>
      decide (0 ≤ 1000 - e.call_timestamp ∧ 1000 - e.call_timestamp ≤ 90 ∧
        e.client_id = 1)) = [] ∧
    (ana_client_engagement_momentum [⟨1, "X"⟩] [⟨1, 1007, 10⟩] [] 1000 1).map
        EngagementRow.calls_last_30d = some 1 ∧
    (ana_client_engagement_momentum [⟨1, "X"⟩] [⟨1, 1007, 10⟩] [] 1000 1).map
        EngagementRow.engagement_score_decayed = some 3 ∧
    (ana_client_engagement_momentum [⟨1, "X"⟩] [⟨1, 1007, 10⟩] [] 1000 1).map
        EngagementRow.engagement_trend = some "Accelerating" ∧
    (1 : ℕ) ≠ 0 ∧ ("Accelerating" : String) ≠ "Dormant" := by
  refine ⟨by norm_num [List.filter_cons], ?_, ?_, ?_, by norm_num, by simp⟩ <;>
    rw [ana_engagement_eq [⟨1, "X"⟩] [⟨1, 1007, 10⟩] [] 1000 1 ⟨1, "X"⟩ rfl] <;>
    norm_num [engagementRowOf, engagementTrend, callsDecayed, tradesDecayed, callEvents,
      tradeEvents, decayWeight14, sizeWeight, roundTo, roundAwayZ]

/-- C10 (amended): every client present in `src_clients` gets an engagement
row (never absence), and a client with no call and no trade in the code's
event window — `now − timestamp ≤ 90` days, which has no lower bound, so
future-dated events count as activity — gets zero counts, zero decayed
score, trend "Dormant", trade probability `0.05`, and null
`call_momentum`, `trade_momentum` and `recent_buy_ratio`. -/
theorem C10_theorem :
    (∀ (clients : List Client) (calls : List CallLog) (trades : List TradeExec)
      (now : ℚ) (c : ℕ) (cl : Client), cl ∈ clients → cl.client_id = c →
      ∃ row : EngagementRow,
        ana_client_engagement_momentum clients calls trades now c = some row) ∧
    (∀ (clients : List Client) (calls : List CallLog) (trades : List TradeExec)
      (now : ℚ) (c : ℕ) (cl : Client), cl ∈ clients → cl.client_id = c →
      (callEvents calls now).filter (fun e => decide (e.client_id = c)) = [] →
      (tradeEvents trades now).filter (fun t => decide (t.client_id = c)) = [] →
      ∃ row : EngagementRow,
        ana_client_engagement_momentum clients calls trades now c = some row ∧
        row.calls_last_30d = 0 ∧ row.calls_prior_30d = 0 ∧
        row.trades_last_30d = 0 ∧ row.trades_prior_30d = 0 ∧
        row.engagement_score_decayed = 0 ∧ row.engagement_trend = "Dormant" ∧
        row.trade_probability = some 0.05 ∧ row.call_momentum = none ∧
        row.trade_momentum = none ∧ row.recent_buy_ratio = none) := by
  have hfind : ∀ (clients : List Client) (c : ℕ) (cl : Client),
      cl ∈ clients → cl.client_id = c →
      ∃ cl', clients.find? (fun x => decide (x.client_id = c)) = some cl' := by
    intro clients c cl hmem hid
    have hsome : (clients.find? fun x => decide (x.client_id = c)).isSome :=
      List.find?_isSome.mpr ⟨cl, hmem, by simp [hid]⟩
    exact Option.isSome_iff_exists.mp hsome
  constructor
  · intro clients calls trades now c cl hmem hid
    rcases hfind clients c cl hmem hid with ⟨cl', hf⟩
    exact ⟨_, ana_engagement_eq clients calls trades now c cl' hf⟩
  · intro clients calls trades now c cl hmem hid hcalls htrades
    rcases hfind clients c cl hmem hid with ⟨cl', hf⟩
    have hcd : callsDecayed calls now c = none := callsDecayed_eq_none calls now c hcalls
    have htd : tradesDecayed trades now c = none := tradesDecayed_eq_none trades now c htrades
    refine ⟨engagementRowOf calls trades now c,
      ana_engagement_eq clients calls trades now c cl' hf, ?_, ?_, ?_, ?_, ?_, ?_, ?_, ?_, ?_, ?_⟩
    · show ((callsDecayed calls now c).map CallsDecayed.calls_30d).getD 0 = 0
      rw [hcd]; rfl
    · show ((callsDecayed calls now c).map CallsDecayed.calls_prior_30d).getD 0 = 0
      rw [hcd]; rfl
    · show ((tradesDecayed trades now c).map TradesDecayed.trades_30d).getD 0 = 0
      rw [htd]; rfl
    · show ((tradesDecayed trades now c).map TradesDecayed.trades_prior_30d).getD 0 = 0
      rw [htd]; rfl
    · show roundTo 1
        (((callsDecayed calls now c).map CallsDecayed.decayed_duration).getD 0 * 0.15 +
          ((tradesDecayed trades now c).map TradesDecayed.decayed_weighted_count).getD 0
            * 2.5) = 0
      rw [hcd, htd]
      norm_num [roundTo, roundAwayZ]
    · show engagementTrend (((callsDecayed calls now c).map CallsDecayed.calls_30d).getD 0)
        (((callsDecayed calls now c).map CallsDecayed.calls_prior_30d).getD 0)
        (((tradesDecayed trades now c).map TradesDecayed.trades_30d).getD 0)
        (((tradesDecayed trades now c).map TradesDecayed.trades_prior_30d).getD 0) = "Dormant"
      rw [hcd, htd]
      norm_num [engagementTrend]
    · show (if ((tradesDecayed trades now c).map TradesDecayed.decayed_weighted_count).getD 0
          = 0 then some (roundTo 2 0.05)
        else if ((tradesDecayed trades now c).map TradesDecayed.decayed_buys).getD 0 +
            ((tradesDecayed trades now c).map TradesDecayed.decayed_sells).getD 0 = 0
        then none
        else some (roundTo 2 (min 0.95
          (0.1 + 0.3 * min 1.0
              (((tradesDecayed trades now c).map TradesDecayed.decayed_weighted_count).getD 0
                / 10.0) +
            0.3 * min 1.0
              (((callsDecayed calls now c).map CallsDecayed.decayed_count).getD 0 / 5.0) +
            0.2 * (((tradesDecayed trades now c).map TradesDecayed.decayed_buys).getD 0 /
              (((tradesDecayed trades now c).map TradesDecayed.decayed_buys).getD 0 +
                ((tradesDecayed trades now c).map TradesDecayed.decayed_sells).getD 0)))))) =
        some 0.05
      rw [hcd, htd]
      norm_num [roundTo, roundAwayZ]
    · show (if ((callsDecayed calls now c).map CallsDecayed.calls_prior_30d).getD 0 = 0
          then none
          else some (roundTo 2
            ((((callsDecayed calls now c).map CallsDecayed.calls_30d).getD 0 : ℚ) /
              (((callsDecayed calls now c).map CallsDecayed.calls_prior_30d).getD 0 : ℚ)))) =
        none
      rw [hcd]
      rfl
    · show (if ((tradesDecayed trades now c).map TradesDecayed.trades_prior_30d).getD 0 = 0
          then none
          else some (roundTo 2
            ((((tradesDecayed trades now c).map TradesDecayed.trades_30d).getD 0 : ℚ) /
              (((tradesDecayed trades now c).map TradesDecayed.trades_prior_30d).getD 0 : ℚ)))) =
        none
      rw [htd]
      rfl
    · show (if ((tradesDecayed trades now c).map TradesDecayed.decayed_buys).getD 0 +
            ((tradesDecayed trades now c).map TradesDecayed.decayed_sells).getD 0 = 0
          then none
          else some (roundTo 2
            (((tradesDecayed trades now c).map TradesDecayed.decayed_buys).getD 0 /
              (((tradesDecayed trades now c).map TradesDecayed.decayed_buys).getD 0 +
                ((tradesDecayed trades now c).map TradesDecayed.decayed_sells).getD 0)))) =
        none
      rw [htd]
      norm_num

/-- Witness for C10, at a present client with empty call and trade logs. -/
theorem C10_witness :
    ∃ row : EngagementRow,
      ana_client_engagement_momentum [⟨1, "X"⟩] [] [] 0 1 = some row ∧
      row.calls_last_30d = 0 ∧ row.calls_prior_30d = 0 ∧
      row.trades_last_30d = 0 ∧ row.trades_prior_30d = 0 ∧
      row.engagement_score_decayed = 0 ∧ row.engagement_trend = "Dormant" ∧
      row.trade_probability = some 0.05 ∧ row.call_momentum = none ∧
      row.trade_momentum = none ∧ row.recent_buy_ratio = none :=
  C10_theorem.2 [⟨1, "X"⟩] [] [] 0 1 ⟨1, "X"⟩ (by simp) rfl rfl rfl

/-! ## Unfolding and positivity lemmas for the conviction view -/

theorem ana_conviction_eq (trades : List TradeExec) (now : ℚ) (c : ℕ) (g : TickerAgg)
    (h : pickTop (tradeFocus trades now c) = some g) :
    ana_client_conviction trades now c = some (convictionRowOf trades now c g) := by
  unfold ana_client_conviction
  rw [h]

/-- `pickTop` on a nonempty group list returns a member whose
`decayed_notional` is maximal. -/
theorem pickTop_spec (l : List TickerAgg) (hne : l ≠ []) :
    ∃ g, pickTop l = some g ∧ g ∈ l ∧
      ∀ x ∈ l, x.decayed_notional ≤ g.decayed_notional := by
  cases l with
  | nil => exact absurd rfl hne
  | cons a as =>
    exact ⟨topBy TickerAgg.decayed_notional a as, rfl,
      topBy_mem TickerAgg.decayed_notional a as,
      le_topBy TickerAgg.decayed_notional a as⟩

theorem tradeFocus_ne_nil {trades : List TradeExec} {now : ℚ} {c : ℕ}
    (h : tradeValues trades now c ≠ []) : tradeFocus trades now c ≠ [] := by
  unfold tradeFocus
  cases hv : tradeValues trades now c with
  | nil => exact absurd hv h
  | cons t ts =>
    intro hmap
    rw [List.map_eq_nil_iff] at hmap
    exact tickerKeys_ne_nil t ts hmap

theorem clientTotalNotional_pos {trades : List TradeExec} {now : ℚ} {c : ℕ}
    (h : tradeValues trades now c ≠ []) : 0 < clientTotalNotional trades now c := by
  unfold clientTotalNotional
  apply List.sum_pos
  · intro x hx
    rcases List.mem_map.mp hx with ⟨g, hg, he⟩
    exact he ▸ tradeFocus_total_pos hg
  · intro hmap
    rw [List.map_eq_nil_iff] at hmap
    exact tradeFocus_ne_nil h hmap

theorem tradeHHI_pos {trades : List TradeExec} {now : ℚ} {c : ℕ}
    (h : tradeValues trades now c ≠ []) : 0 < tradeHHI trades now c := by
  unfold tradeHHI
  apply List.sum_pos
  · intro x hx
    rcases List.mem_map.mp hx with ⟨g, hg, he⟩
    have h1 : 0 < g.total_notional := tradeFocus_total_pos hg
    have h2 : 0 < clientTotalNotional trades now c := clientTotalNotional_pos h
    exact he ▸ pow_pos (div_pos h1 h2) 2
  · intro hmap
    rw [List.map_eq_nil_iff] at hmap
    exact tradeFocus_ne_nil h hmap

/-- The estimated-notional sum over any trade list decomposes into the
three fixed proxies times the bucket counts. -/
theorem estNotional_sum_decomp (l : List TradeExec) :
    (l.map fun t => estNotional t.notional_bucket).sum =
      500000 * (l.countP fun t => decide (t.notional_bucket = "Large") : ℚ) +
      100000 * (l.countP fun t => decide (t.notional_bucket = "Medium") : ℚ) +
      25000 * (l.countP fun t =>
        decide (t.notional_bucket ≠ "Large" ∧ t.notional_bucket ≠ "Medium") : ℚ) := by
  induction l with
  | nil => simp
  | cons t ts ih =>
    simp only [List.map_cons, List.sum_cons, List.countP_cons, ih]
    by_cases hL : t.notional_bucket = "Large"
    · simp [estNotional, hL]
      push_cast
      ring
    · by_cases hM : t.notional_bucket = "Medium"
      · simp [estNotional, hL, hM]
        push_cast
        ring
      · simp [estNotional, hL, hM]
        push_cast
        ring

/-! ## Claim C7 -/

/-- C7, as stated, is false on the code: the returned `conviction_score`
column is `ROUND(decayed_notional / 10000, 1)`.  For one Small trade 60
days old the top ticker's decayed notional is `25000/3`, so the claim's
value is `5/6 ≈ 0.8333` but the view returns `0.8`. -/
theorem C7_counterexample :
    (ana_client_conviction [⟨1, 1, some "AAA", "Buy", "Small", 40⟩] 100 1).map
        ConvictionRow.conviction_score = some (4/5) ∧
      (((25000 : ℚ)/3) / 10000) = 5/6 ∧
      ((4 : ℚ)/5) ≠ 5/6 := by
  refine ⟨?_, by norm_num, by norm_num⟩
  have h1 : tradeValues [⟨1, 1, some "AAA", "Buy", "Small", 40⟩] 100 1
      = [⟨1, 1, some "AAA", "Buy", "Small", 40⟩] := by
    norm_num [tradeValues, List.filter_cons, Option.some_ne_none]
  have h2 : tradeFocus [⟨1, 1, some "AAA", "Buy", "Small", 40⟩] 100 1
      = [⟨some "AAA", 1, 1, 1, 25000, 25000/3⟩] := by
    unfold tradeFocus
    rw [h1]
    have hA : aggKey [⟨1, 1, some "AAA", "Buy", "Small", 40⟩] 100 (some "AAA", 1)
        = ⟨some "AAA", 1, 1, 1, 25000, 25000/3⟩ := by
      simp [aggKey, List.filter_cons, estNotional, decayWeight30]
      norm_num
    simp [tickerKeys, hA]
  have h5 : pickTop (tradeFocus [⟨1, 1, some "AAA", "Buy", "Small", 40⟩] 100 1)
      = some ⟨some "AAA", 1, 1, 1, 25000, 25000/3⟩ := by
    rw [h2]
    rfl
  unfold ana_client_conviction
  rw [h5]
  simp only [convictionRowOf, Option.map_some']
  norm_num [h2, clientTotalNotional, tradeHHI, roundTo, roundAwayZ]

/-- C7 (amended): for a client with at least one trade in the
`days_ago ≤ 180` window, the view reports a ticker group with maximal
`decayed_notional` (ties broken arbitrarily); `conviction_score` is that
group's `decayed_notional / 10000` rounded to 1 decimal place;
`conviction_level` buckets the unrounded trade HHI at
`0.25 / 0.15 / 0.08`; and `sentiment_signal` follows the sign of the top
group's `net_direction`; `decay(d) = 1/(1 + d/30)`. -/
theorem C7_amended (trades : List TradeExec) (now : ℚ) (c : ℕ)
    (h : tradeValues trades now c ≠ []) :
    ∃ (row : ConvictionRow) (g : TickerAgg),
      ana_client_conviction trades now c = some row ∧
      g ∈ tradeFocus trades now c ∧
      row.top_conviction_stock = g.ticker ∧
      row.top_conviction_stock_id = g.stock_id ∧
      (∀ g' ∈ tradeFocus trades now c,
        g'.decayed_notional ≤ g.decayed_notional) ∧
      row.conviction_score = roundTo 1 (g.decayed_notional / 10000) ∧
      row.conviction_level =
        (if 0.25 ≤ tradeHHI trades now c then "Very High"
         else if 0.15 ≤ tradeHHI trades now c then "High"
         else if 0.08 ≤ tradeHHI trades now c then "Moderate"
         else "Diversified") ∧
      row.sentiment_signal =
        (if 0 < g.net_direction then "Bullish"
         else if g.net_direction < 0 then "Bearish"
         else "Neutral") ∧
      (∀ d : ℚ, decayWeight30 d = 1 / (1 + d / 30)) := by
  obtain ⟨g, hpick, hmem, hmax⟩ := pickTop_spec _ (tradeFocus_ne_nil h)
  refine ⟨convictionRowOf trades now c g, g, ana_conviction_eq trades now c g hpick,
    hmem, rfl, rfl, hmax, ?_, rfl, rfl, fun d => rfl⟩
  show roundTo 1 (g.decayed_notional / 10000.0) = roundTo 1 (g.decayed_notional / 10000)
  norm_num

/-- Witness for C7 (amended), at a client with a single Small Buy trade. -/
theorem C7_witness :
    ∃ (row : ConvictionRow) (g : TickerAgg),
      ana_client_conviction [⟨1, 1, some "AAA", "Buy", "Small", 40⟩] 100 1 = some row ∧
      g ∈ tradeFocus [⟨1, 1, some "AAA", "Buy", "Small", 40⟩] 100 1 ∧
      row.top_conviction_stock = g.ticker ∧
      row.top_conviction_stock_id = g.stock_id ∧
      (∀ g' ∈ tradeFocus [⟨1, 1, some "AAA", "Buy", "Small", 40⟩] 100 1,
        g'.decayed_notional ≤ g.decayed_notional) ∧
      row.conviction_score = roundTo 1 (g.decayed_notional / 10000) ∧
      row.conviction_level =
        (if 0.25 ≤ tradeHHI [⟨1, 1, some "AAA", "Buy", "Small", 40⟩] 100 1 then "Very High"
         else if 0.15 ≤ tradeHHI [⟨1, 1, some "AAA", "Buy", "Small", 40⟩] 100 1 then "High"
         else if 0.08 ≤ tradeHHI [⟨1, 1, some "AAA", "Buy", "Small", 40⟩] 100 1
         then "Moderate"
         else "Diversified") ∧
      row.sentiment_signal =
        (if 0 < g.net_direction then "Bullish"
         else if g.net_direction < 0 then "Bearish"
         else "Neutral") ∧
      (∀ d : ℚ, decayWeight30 d = 1 / (1 + d / 30)) :=
  C7_amended [⟨1, 1, some "AAA", "Buy", "Small", 40⟩] 100 1
    (by norm_num [tradeValues, List.filter_cons, Option.some_ne_none])

/-! ## Claim C8 -/

/-- C8, as stated, is false on the code: the returned `trade_hhi` and
`effective_stocks_traded` columns are rounded (to 4 and 1 decimal places).
For one Large and one Small trade today the shares are `20/21` and `1/21`,
so the exact HHI is `401/441 ≈ 0.90930`, but the view returns `0.9093`. -/
theorem C8_counterexample :
    (ana_client_conviction [⟨1, 1, some "AAA", "Buy", "Large", 100⟩,
        ⟨1, 2, some "BBB", "Sell", "Small", 100⟩] 100 1).map
        ConvictionRow.trade_hhi = some (9093/10000) ∧
      ((500000 : ℚ)/525000) ^ 2 + ((25000 : ℚ)/525000) ^ 2 = 401/441 ∧
      ((9093 : ℚ)/10000) ≠ 401/441 := by
  refine ⟨?_, by norm_num, by norm_num⟩
  simp [ana_client_conviction, convictionRowOf, pickTop, topBy, tradeFocus, tickerKeys,
    aggKey, tradeValues, List.filter_cons, Option.some_ne_none, clientTotalNotional,
    tradeHHI, estNotional, decayWeight30]
  norm_num [roundTo, roundAwayZ]

/-- C8 (amended): for a client with at least one trade in the
`days_ago ≤ 180` window, every per-ticker `total_notional` is the sum of
the fixed proxies (Large 500000, Medium 100000, else 25000) over that
ticker's windowed trades; the unrounded trade HHI — the sum over tickers
of `(ticker total / client total)²` — is positive; and the returned
`trade_hhi` and `effective_stocks_traded` columns are that HHI rounded to
4 decimal places and `1/HHI` rounded to 1 decimal place. -/
theorem C8_amended (trades : List TradeExec) (now : ℚ) (c : ℕ)
    (h : tradeValues trades now c ≠ []) :
    ∃ row : ConvictionRow,
      ana_client_conviction trades now c = some row ∧
      (∀ g ∈ tradeFocus trades now c,
        g.total_notional =
          500000 * (((tradeValues trades now c).filter fun t =>
              decide (t.ticker = g.ticker ∧ t.stock_id = g.stock_id)).countP
              (fun t => decide (t.notional_bucket = "Large")) : ℚ) +
          100000 * (((tradeValues trades now c).filter fun t =>
              decide (t.ticker = g.ticker ∧ t.stock_id = g.stock_id)).countP
              (fun t => decide (t.notional_bucket = "Medium")) : ℚ) +
          25000 * (((tradeValues trades now c).filter fun t =>
              decide (t.ticker = g.ticker ∧ t.stock_id = g.stock_id)).countP
              (fun t => decide (t.notional_bucket ≠ "Large" ∧
                t.notional_bucket ≠ "Medium")) : ℚ)) ∧
      clientTotalNotional trades now c =
        ((tradeFocus trades now c).map TickerAgg.total_notional).sum ∧
      tradeHHI trades now c =
        ((tradeFocus trades now c).map fun g =>
          (g.total_notional / clientTotalNotional trades now c) ^ 2).sum ∧
      0 < tradeHHI trades now c ∧
      row.trade_hhi = roundTo 4 (tradeHHI trades now c) ∧
      row.effective_stocks_traded = roundTo 1 (1 / tradeHHI trades now c) := by
  obtain ⟨g, hpick, _, _⟩ := pickTop_spec _ (tradeFocus_ne_nil h)
  have hhipos := tradeHHI_pos h
  refine ⟨convictionRowOf trades now c g, ana_conviction_eq trades now c g hpick,
    ?_, rfl, rfl, hhipos, rfl, ?_⟩
  · intro g' hg'
    rcases List.mem_map.mp hg' with ⟨k, _, he⟩
    subst he
    have hpr : (aggKey (tradeValues trades now c) now k).total_notional =
        (((tradeValues trades now c).filter fun t =>
          decide (t.ticker = k.1 ∧ t.stock_id = k.2)).map
          fun t => estNotional t.notional_bucket).sum := rfl
    rw [hpr, estNotional_sum_decomp]
    rfl
  · have hpr : (convictionRowOf trades now c g).effective_stocks_traded =
        roundTo 1 (if 0 < tradeHHI trades now c then 1 / tradeHHI trades now c else 0) :=
      rfl
    rw [hpr, if_pos hhipos]

/-- Witness for C8 (amended), at a client with one Large and one Small
trade today. -/
theorem C8_witness :
    ∃ row : ConvictionRow,
      ana_client_conviction [⟨1, 1, some "AAA", "Buy", "Large", 100⟩,
        ⟨1, 2, some "BBB", "Sell", "Small", 100⟩] 100 1 = some row ∧
      (∀ g ∈ tradeFocus [⟨1, 1, some "AAA", "Buy", "Large", 100⟩,
          ⟨1, 2, some "BBB", "Sell", "Small", 100⟩] 100 1,
        g.total_notional =
          500000 * (((tradeValues [⟨1, 1, some "AAA", "Buy", "Large", 100⟩,
              ⟨1, 2, some "BBB", "Sell", "Small", 100⟩] 100 1).filter fun t =>
              decide (t.ticker = g.ticker ∧ t.stock_id = g.stock_id)).countP
              (fun t => decide (t.notional_bucket = "Large")) : ℚ) +
          100000 * (((tradeValues [⟨1, 1, some "AAA", "Buy", "Large", 100⟩,
              ⟨1, 2, some "BBB", "Sell", "Small", 100⟩] 100 1).filter fun t =>
              decide (t.ticker = g.ticker ∧ t.stock_id = g.stock_id)).countP
              (fun t => decide (t.notional_bucket = "Medium")) : ℚ) +
          25000 * (((tradeValues [⟨1, 1, some "AAA", "Buy", "Large", 100⟩,
              ⟨1, 2, some "BBB", "Sell", "Small", 100⟩] 100 1).filter fun t =>
              decide (t.ticker = g.ticker ∧ t.stock_id = g.stock_id)).countP
              (fun t => decide (t.notional_bucket ≠ "Large" ∧
                t.notional_bucket ≠ "Medium")) : ℚ)) ∧
      clientTotalNotional [⟨1, 1, some "AAA", "Buy", "Large", 100⟩,
          ⟨1, 2, some "BBB", "Sell", "Small", 100⟩] 100 1 =
        ((tradeFocus [⟨1, 1, some "AAA", "Buy", "Large", 100⟩,
          ⟨1, 2, some "BBB", "Sell", "Small", 100⟩] 100 1).map
            TickerAgg.total_notional).sum ∧
      tradeHHI [⟨1, 1, some "AAA", "Buy", "Large", 100⟩,
          ⟨1, 2, some "BBB", "Sell", "Small", 100⟩] 100 1 =
        ((tradeFocus [⟨1, 1, some "AAA", "Buy", "Large", 100⟩,
          ⟨1, 2, some "BBB", "Sell", "Small", 100⟩] 100 1).map fun g =>
          (g.total_notional / clientTotalNotional [⟨1, 1, some "AAA", "Buy", "Large", 100⟩,
            ⟨1, 2, some "BBB", "Sell", "Small", 100⟩] 100 1) ^ 2).sum ∧
      0 < tradeHHI [⟨1, 1, some "AAA", "Buy", "Large", 100⟩,
        ⟨1, 2, some "BBB", "Sell", "Small", 100⟩] 100 1 ∧
      row.trade_hhi = roundTo 4 (tradeHHI [⟨1, 1, some "AAA", "Buy", "Large", 100⟩,
        ⟨1, 2, some "BBB", "Sell", "Small", 100⟩] 100 1) ∧
      row.effective_stocks_traded = roundTo 1
        (1 / tradeHHI [⟨1, 1, some "AAA", "Buy", "Large", 100⟩,
          ⟨1, 2, some "BBB", "Sell", "Small", 100⟩] 100 1) :=
  C8_amended [⟨1, 1, some "AAA", "Buy", "Large", 100⟩,
      ⟨1, 2, some "BBB", "Sell", "Small", 100⟩] 100 1
    (by
      have hv : tradeValues [⟨1, 1, some "AAA", "Buy", "Large", 100⟩,
          ⟨1, 2, some "BBB", "Sell", "Small", 100⟩] 100 1 =
          [⟨1, 1, some "AAA", "Buy", "Large", 100⟩,
            ⟨1, 2, some "BBB", "Sell", "Small", 100⟩] := by
        norm_num [tradeValues, List.filter_cons, Option.some_ne_none]
      rw [hv]
      simp)

/-! ## Claim C5 -/

theorem ana_risk_eq (clients : List Client) (snaps : List Snapshot)
    (positions : List Position) (trades : List TradeExec) (now : ℚ) (c : ℕ)
    (cl : Client)
    (hfind : clients.find? (fun x => decide (x.client_id = c)) = some cl) :
    int_client_risk_multifactor clients snaps positions trades now c =
      some (riskRowOf cl snaps positions trades now c) := by
  unfold int_client_risk_multifactor
  rw [hfind]

theorem turnoverFactor_eq_none (trades : List TradeExec) (now : ℚ) (c : ℕ)
    (h : tradesWindow180 trades now c = []) : turnoverFactor? trades now c = none := by
  unfold turnoverFactor?
  rw [h]

theorem positionFactor_eq_none (snaps : List Snapshot) (positions : List Position)
    (c : ℕ) (h : clientPositionWeights snaps positions c = []) :
    positionFactor? snaps positions c = none := by
  unfold positionFactor?
  rw [h]

/-- C5, as stated, is false on the code: for a client with zero trades in
the trailing 180 days the `trading_behavior` CTE yields no group, and the
`LEFT JOIN` default `COALESCE(..., 0.40)` applies — not the claimed
`else 0.25` arm of the count CASE. -/
theorem C5_counterexample :
    (int_client_risk_multifactor [⟨1, "Hedge Fund"⟩] [] [] [] 0 1).map
        RiskRow.trading_factor = some (2/5) ∧
      tradesWindow180 [] 0 1 = [] ∧
      ((2 : ℚ)/5) ≠ 1/4 := by
  refine ⟨?_, rfl, by norm_num⟩
  rw [ana_risk_eq [⟨1, "Hedge Fund"⟩] [] [] [] 0 1 ⟨1, "Hedge Fund"⟩ rfl]
  norm_num [riskRowOf, turnoverFactor?, tradesWindow180, positionFactor?,
    clientPositionWeights]

/-- C5 (amended): the factors are as claimed except for the defaults and
the position join: the investor-type lookup is as listed; the trading
factor follows the count CASE only when the client has at least one
windowed trade and otherwise defaults to `0.40`; the position factor
buckets the maximum position weight over ALL the client's snapshots (not
only the latest), with strict `>` thresholds, and defaults to `0.40`
when the client has no joined position; the composite score is the stated
weighted sum rounded to 3 decimal places; and the category buckets the
unrounded weighted sum at `0.60 / 0.42`. -/
theorem C5_amended (clients : List Client) (snaps : List Snapshot)
    (positions : List Position) (trades : List TradeExec) (now : ℚ) (c : ℕ)
    (cl : Client)
    (hfind : clients.find? (fun x => decide (x.client_id = c)) = some cl) :
    ∃ row : RiskRow,
      int_client_risk_multifactor clients snaps positions trades now c = some row ∧
      row.investor_type_factor = investorTypeFactor cl.client_type ∧
      (investorTypeFactor "Hedge Fund" = 0.85 ∧ investorTypeFactor "Family Office" = 0.65 ∧
        investorTypeFactor "Asset Manager" = 0.55 ∧ investorTypeFactor "Insurance" = 0.35 ∧
        investorTypeFactor "Pension Fund" = 0.30 ∧ investorTypeFactor "Sovereign Fund" = 0.50) ∧
      (tradesWindow180 trades now c = [] → row.trading_factor = 0.40) ∧
      (tradesWindow180 trades now c ≠ [] →
        row.trading_factor =
          (if 50 < (tradesWindow180 trades now c).length then 0.75
           else if 20 < (tradesWindow180 trades now c).length then 0.55
           else if 5 < (tradesWindow180 trades now c).length then 0.40
           else 0.25)) ∧
      (clientPositionWeights snaps positions c = [] → row.position_factor = 0.40) ∧
      (∀ w ws, clientPositionWeights snaps positions c = w :: ws →
        ∃ m, m ∈ w :: ws ∧ (∀ x ∈ w :: ws, x ≤ m) ∧
          row.position_factor =
            (if 0.15 < m then 0.70 else if 0.08 < m then 0.50 else 0.35)) ∧
      row.composite_risk_score = roundTo 3
        (0.40 * row.investor_type_factor + 0.35 * row.trading_factor +
          0.25 * row.position_factor) ∧
      row.risk_category =
        (if 0.60 ≤ 0.40 * row.investor_type_factor + 0.35 * row.trading_factor +
            0.25 * row.position_factor then "Aggressive"
         else if 0.42 ≤ 0.40 * row.investor_type_factor + 0.35 * row.trading_factor +
            0.25 * row.position_factor then "Moderate"
         else "Conservative") := by
  refine ⟨riskRowOf cl snaps positions trades now c,
    ana_risk_eq clients snaps positions trades now c cl hfind, rfl,
    ⟨by simp [investorTypeFactor], by simp [investorTypeFactor],
      by simp [investorTypeFactor], by simp [investorTypeFactor],
      by simp [investorTypeFactor], by simp [investorTypeFactor]⟩,
    ?_, ?_, ?_, ?_, rfl, rfl⟩
  · intro hempty
    show ((turnoverFactor? trades now c).getD 0.40) = 0.40
    rw [turnoverFactor_eq_none trades now c hempty]
    rfl
  · intro hne
    cases hw : tradesWindow180 trades now c with
    | nil => exact absurd hw hne
    | cons t ts =>
      show ((turnoverFactor? trades now c).getD 0.40) = _
      unfold turnoverFactor?
      rw [hw]
      rfl
  · intro hempty
    show ((positionFactor? snaps positions c).getD 0.40) = 0.40
    rw [positionFactor_eq_none snaps positions c hempty]
    rfl
  · intro w ws hcons
    refine ⟨qMax w ws, foldl_max_mem w ws, le_foldl_max w ws, ?_⟩
    show ((positionFactor? snaps positions c).getD 0.40) = _
    unfold positionFactor?
    rw [hcons]
    rfl

/-- Witness for C5 (amended), at a Hedge Fund client with one snapshot,
one position of weight `1/5`, and one windowed trade. -/
theorem C5_witness :
    ∃ row : RiskRow,
      int_client_risk_multifactor [⟨1, "Hedge Fund"⟩] [⟨1, 1, 0⟩]
        [⟨1, 1, (1 : ℚ)/5, 0⟩] [⟨1, 1, some "AAA", "Buy", "Small", 40⟩] 100 1 = some row ∧
      row.investor_type_factor = investorTypeFactor "Hedge Fund" ∧
      (investorTypeFactor "Hedge Fund" = 0.85 ∧ investorTypeFactor "Family Office" = 0.65 ∧
        investorTypeFactor "Asset Manager" = 0.55 ∧ investorTypeFactor "Insurance" = 0.35 ∧
        investorTypeFactor "Pension Fund" = 0.30 ∧ investorTypeFactor "Sovereign Fund" = 0.50) ∧
      (tradesWindow180 [⟨1, 1, some "AAA", "Buy", "Small", 40⟩] 100 1 = [] →
        row.trading_factor = 0.40) ∧
      (tradesWindow180 [⟨1, 1, some "AAA", "Buy", "Small", 40⟩] 100 1 ≠ [] →
        row.trading_factor =
          (if 50 < (tradesWindow180 [⟨1, 1, some "AAA", "Buy", "Small", 40⟩] 100 1).length
           then 0.75
           else if 20 < (tradesWindow180 [⟨1, 1, some "AAA", "Buy", "Small", 40⟩] 100 1).length
           then 0.55
           else if 5 < (tradesWindow180 [⟨1, 1, some "AAA", "Buy", "Small", 40⟩] 100 1).length
           then 0.40
           else 0.25)) ∧
      (clientPositionWeights [⟨1, 1, 0⟩] [⟨1, 1, (1 : ℚ)/5, 0⟩] 1 = [] →
        row.position_factor = 0.40) ∧
      (∀ w ws, clientPositionWeights [⟨1, 1, 0⟩] [⟨1, 1, (1 : ℚ)/5, 0⟩] 1 = w :: ws →
        ∃ m, m ∈ w :: ws ∧ (∀ x ∈ w :: ws, x ≤ m) ∧
          row.position_factor =
            (if 0.15 < m then 0.70 else if 0.08 < m then 0.50 else 0.35)) ∧
      row.composite_risk_score = roundTo 3
        (0.40 * row.investor_type_factor + 0.35 * row.trading_factor +
          0.25 * row.position_factor) ∧
      row.risk_category =
        (if 0.60 ≤ 0.40 * row.investor_type_factor + 0.35 * row.trading_factor +
            0.25 * row.position_factor then "Aggressive"
         else if 0.42 ≤ 0.40 * row.investor_type_factor + 0.35 * row.trading_factor +
            0.25 * row.position_factor then "Moderate"
         else "Conservative") :=
  C5_amended [⟨1, "Hedge Fund"⟩] [⟨1, 1, 0⟩] [⟨1, 1, (1 : ℚ)/5, 0⟩]
    [⟨1, 1, some "AAA", "Buy", "Small", 40⟩] 100 1 ⟨1, "Hedge Fund"⟩ rfl
